import Mathlib

/-!
# Verification of the Zixir Python port bridge (`priv/python/port_bridge.py`)

A shallow embedding of the bridge's wire codec (`wire_to_python`,
`python_to_wire`, `encode_numpy_array`, `decode_numpy_array`,
`encode_pandas_df`, `decode_pandas_df`) and of the dispatch loop in `main`,
together with theorems settling the specification's claims about them.

Conventions of the embedding:
* JSON-parsed wire values are the inductive type `Wire`; native Python values
  are `PyValue`.  Python floats are carried as their IEEE-754 bit patterns
  (a `Nat`), matching the spec's bitwise comparison for floats; integer array
  elements are likewise carried as fixed-width bit patterns.
* Python exceptions are `PyErr` values threaded through `Except`; library
  calls that can raise (`base64.b64decode`, `np.frombuffer`, `reshape`,
  `pd.DataFrame`) are modelled with the raises they perform on the inputs
  reachable here.
* The module registry reached through `importlib` is an opaque collaborator,
  modelled as an environment parameter (`Env`), as §9 of the spec directs.
-/

namespace PortBridge

/-- A raised Python exception: the exception class name and its message. -/
structure PyErr where
  kind : String
  msg : String
deriving DecidableEq, Repr

/-- JSON-representable wire value (result of `json.loads` / input of
`json.dumps`).  Floats are IEEE-754 bit patterns. -/
inductive Wire where
  | null
  | bool (b : Bool)
  | int (n : Int)
  | float (bits : Nat)
  | str (s : String)
  | arr (xs : List Wire)
  | obj (kvs : List (String × Wire))

/-- First-match association lookup, the model of Python `dict` indexing for
JSON-parsed objects (whose keys are unique). -/
def wlookup (kvs : List (String × Wire)) (k : String) : Option Wire :=
  match kvs with
  | [] => none
  | (k', v) :: rest => if k' = k then some v else wlookup rest k

/-! ## base64 (model of `base64.b64encode` / `base64.b64decode`) -/

/-- Character of a 6-bit group in the standard base64 alphabet. -/
def sextetChar (n : Nat) : Char :=
  if n < 26 then Char.ofNat ('A'.toNat + n)
  else if n < 52 then Char.ofNat ('a'.toNat + (n - 26))
  else if n < 62 then Char.ofNat ('0'.toNat + (n - 52))
  else if n = 62 then '+'
  else '/'

/-- Inverse of `sextetChar`: `none` for characters outside the alphabet. -/
def charSextet (c : Char) : Option Nat :=
  if 'A' ≤ c ∧ c ≤ 'Z' then some (c.toNat - 'A'.toNat)
  else if 'a' ≤ c ∧ c ≤ 'z' then some (c.toNat - 'a'.toNat + 26)
  else if '0' ≤ c ∧ c ≤ '9' then some (c.toNat - '0'.toNat + 52)
  else if c = '+' then some 62
  else if c = '/' then some 63
  else none

/-- base64 encoding of a byte list, three input bytes per four output
characters, `=`-padded. -/
def encodeChunks : List Nat → List Char
  | [] => []
  | [a] => [sextetChar (a / 4), sextetChar (a % 4 * 16), '=', '=']
  | [a, b] => [sextetChar (a / 4), sextetChar (a % 4 * 16 + b / 16),
               sextetChar (b % 16 * 4), '=']
  | a :: b :: c :: rest =>
      sextetChar (a / 4) :: sextetChar (a % 4 * 16 + b / 16) ::
      sextetChar (b % 16 * 4 + c / 64) :: sextetChar (c % 64) :: encodeChunks rest

/-- `base64.b64encode(bs).decode('ascii')`. -/
def b64encode (bs : List Nat) : String := String.mk (encodeChunks bs)

/-- Reassemble bytes from a list of 6-bit groups (four groups per three
bytes; a trailing group of two or three yields one or two bytes). -/
def decodeQuads : List Nat → List Nat
  | s1 :: s2 :: s3 :: s4 :: rest =>
      (s1 * 4 + s2 / 16) :: (s2 % 16 * 16 + s3 / 4) :: (s3 % 4 * 64 + s4) ::
      decodeQuads rest
  | [s1, s2] => [s1 * 4 + s2 / 16]
  | [s1, s2, s3] => [s1 * 4 + s2 / 16, s2 % 16 * 16 + s3 / 4]
  | _ => []

/-- `base64.b64decode(s)` on a string, default non-validating mode:
characters outside the alphabet are discarded, then the count of data
characters must not be 1 (mod 4) and padding must complete a quad. -/
def b64decodeStr (s : String) : Except PyErr (List Nat) :=
  let kept := s.toList.filter (fun c => (charSextet c).isSome || c = '=')
  let data := kept.filterMap charSextet
  let pads := (kept.filter (· = '=')).length
  if data.length % 4 = 1 then
    .error ⟨"binascii.Error",
      "Invalid base64-encoded string: number of data characters cannot be 1 more than a multiple of 4"⟩
  else if (data.length + pads) % 4 ≠ 0 then
    .error ⟨"binascii.Error", "Incorrect padding"⟩
  else
    .ok (decodeQuads data)

/-- Python type name of a wire value, as it appears in `TypeError` messages. -/
def wireTypeName : Wire → String
  | .null => "NoneType"
  | .bool _ => "bool"
  | .int _ => "int"
  | .float _ => "float"
  | .str _ => "str"
  | .arr _ => "list"
  | .obj _ => "dict"

/-- `base64.b64decode` applied to a decoded JSON value: only strings are
accepted (`_bytes_from_decode_data` raises `TypeError` otherwise). -/
def pyB64decode (w : Wire) : Except PyErr (List Nat) :=
  match w with
  | .str s => b64decodeStr s
  | _ => .error ⟨"TypeError",
      "argument should be a bytes-like object or ASCII string, not '" ++
      wireTypeName w ++ "'"⟩

/-! ## Little-endian fixed-width element serialization
(model of `ndarray.tobytes` / `np.frombuffer`) -/

/-- `k`-byte little-endian serialization of a bit pattern. -/
def natToLE : Nat → Nat → List Nat
  | 0, _ => []
  | k + 1, v => v % 256 :: natToLE k (v / 256)

/-- Read a little-endian byte list back into a bit pattern. -/
def natFromLE : List Nat → Nat
  | [] => 0
  | b :: bs => b + 256 * natFromLE bs

/-- Group a byte list into runs of `k + 1` and read each little-endian. -/
def bytesToElems (k : Nat) : List Nat → List Nat
  | [] => []
  | b :: bs => natFromLE (b :: bs.take k) :: bytesToElems k (bs.drop k)
termination_by bs => bs.length
decreasing_by simp; omega

/-! ## Numeric arrays and frames -/

/-- The 10 fixed numeric element kinds of the wire protocol. -/
inductive Dtype where
  | f64 | f32 | i64 | i32 | i16 | i8 | u64 | u32 | u16 | u8
deriving DecidableEq, Repr

/-- Bytes per element. -/
def itemsize : Dtype → Nat
  | .f64 => 8
  | .f32 => 4
  | .i64 => 8
  | .i32 => 4
  | .i16 => 2
  | .i8 => 1
  | .u64 => 8
  | .u32 => 4
  | .u16 => 2
  | .u8 => 1

/-- The wire tag of a dtype (the `dtype_map` of `encode_numpy_array`). -/
def dtypeTag : Dtype → String
  | .f64 => "f64"
  | .f32 => "f32"
  | .i64 => "i64"
  | .i32 => "i32"
  | .i16 => "i16"
  | .i8 => "i8"
  | .u64 => "u64"
  | .u32 => "u32"
  | .u16 => "u16"
  | .u8 => "u8"

/-- The `dtype_map` of `decode_numpy_array`: `dtype_map.get(tag, np.float64)`,
an unknown tag falls back to 64-bit float. -/
def tagToDtype (s : String) : Dtype :=
  if s = "f64" then .f64
  else if s = "f32" then .f32
  else if s = "i64" then .i64
  else if s = "i32" then .i32
  else if s = "i16" then .i16
  else if s = "i8" then .i8
  else if s = "u64" then .u64
  else if s = "u32" then .u32
  else if s = "u16" then .u16
  else if s = "u8" then .u8
  else .f64

/-- A numpy array: element kind, dimension sizes, and the C-order flat list
of element bit patterns (each `< 256 ^ itemsize dtype`;  integers as
two's-complement patterns, floats as their IEEE-754 patterns). -/
structure NDArray where
  dtype : Dtype
  shape : List Nat
  data : List Nat
deriving DecidableEq, Repr

/-- A pandas DataFrame: column names, the 2-D value array, and the explicit
row index when it is not the trivial `RangeIndex`. -/
structure Frame where
  columns : List String
  data : NDArray
  index : Option (List Wire)

mutual
/-- Native Python values reachable on either side of the codec.  `pyobj` is
an opaque object, carrying its iteration behaviour and its `str()` text. -/
inductive PyValue where
  | none
  | bool (b : Bool)
  | int (n : Int)
  | float (bits : Nat)
  | str (s : String)
  | bytes (bs : List Nat)
  | list (xs : List PyValue)
  | tuple (xs : List PyValue)
  | dict (kvs : List (String × PyValue))
  | ndarray (a : NDArray)
  | frame (df : Frame)
  | series (values : NDArray)
  | pyobj (it : IterBehavior) (sr : String)

/-- How iterating an opaque object behaves: no `__iter__` at all, a finite
yield, or a raise during iteration. -/
inductive IterBehavior where
  | noIter
  | yields (xs : List PyValue)
  | raises
end

/-- Capability flags of the running instance (`NUMPY_AVAILABLE`,
`PANDAS_AVAILABLE`). -/
structure Caps where
  numpy : Bool
  pandas : Bool
deriving DecidableEq, Repr

/-! ## Decode direction (`wire_to_python` and helpers) -/

/-- Python subscript `w[k]` with a string key on a JSON-decoded value. -/
def pyGetItem (w : Wire) (k : String) : Except PyErr Wire :=
  match w with
  | .obj kvs =>
      match wlookup kvs k with
      | some v => .ok v
      | none => .error ⟨"KeyError", "'" ++ k ++ "'"⟩
  | .arr _ => .error ⟨"TypeError", "list indices must be integers or slices, not str"⟩
  | .str _ => .error ⟨"TypeError", "string indices must be integers"⟩
  | _ => .error ⟨"TypeError", "'" ++ wireTypeName w ++ "' object is not subscriptable"⟩

/-- Python `tuple(w)` on a JSON-decoded value, as a list of elements. -/
def pyIterElems (w : Wire) : Except PyErr (List Wire) :=
  match w with
  | .arr xs => .ok xs
  | .str s => .ok (s.toList.map (fun c => .str (String.mk [c])))
  | .obj kvs => .ok (kvs.map (fun kv => .str kv.1))
  | _ => .error ⟨"TypeError", "'" ++ wireTypeName w ++ "' object is not iterable"⟩

/-- Read reshape dimensions: integers (and bools, which Python treats as
integers) are accepted, anything else raises numpy's `TypeError`. -/
def dimsToInts (ds : List Wire) : Except PyErr (List Int) :=
  match ds with
  | [] => .ok []
  | .int n :: rest => (dimsToInts rest).map (n :: ·)
  | .bool b :: rest => (dimsToInts rest).map ((if b then 1 else 0) :: ·)
  | d :: _ =>
      .error ⟨"TypeError",
        "'" ++ wireTypeName d ++ "' object cannot be interpreted as an integer"⟩

/-- `decode_numpy_array(arr_info)`: dtype tag looked up with `f64` fallback,
base64 data interpreted as a flat buffer of that dtype, reshaped to the
given shape when the shape sequence is non-empty. -/
def decode_numpy_array (arr_info : Wire) : Except PyErr NDArray := do
  let tagW ← pyGetItem arr_info "dtype"
  let dtype ← match tagW with
    | .str s => pure (tagToDtype s)
    | .arr _ => Except.error ⟨"TypeError", "unhashable type: 'list'"⟩
    | .obj _ => Except.error ⟨"TypeError", "unhashable type: 'dict'"⟩
    | _ => pure Dtype.f64
  let shapeW ← pyGetItem arr_info "shape"
  let dims ← pyIterElems shapeW
  let dataW ← pyGetItem arr_info "data"
  let raw ← pyB64decode dataW
  if raw.length % itemsize dtype ≠ 0 then
    Except.error ⟨"ValueError", "buffer size must be a multiple of element size"⟩
  else
    let elems := bytesToElems (itemsize dtype - 1) raw
    if dims.isEmpty then
      pure ⟨dtype, [elems.length], elems⟩
    else do
      let ns ← dimsToInts dims
      if ns.all (0 ≤ ·) ∧ (ns.map Int.toNat).prod = elems.length then
        pure ⟨dtype, ns.map Int.toNat, elems⟩
      else
        Except.error ⟨"ValueError", "cannot reshape array"⟩

/-- Python truthiness of a JSON-decoded value (`if x:`). -/
def truthyW : Wire → Bool
  | .null => false
  | .bool b => b
  | .int n => n != 0
  | .float bits => !(bits = 0 || bits = 2 ^ 63)
  | .str s => s != ""
  | .arr xs => !xs.isEmpty
  | .obj kvs => !kvs.isEmpty

/-- `w.get(k)` / `w.get(k, d)`: only mappings have `.get`. -/
def pyDictGet (w : Wire) (k : String) : Except PyErr (Option Wire) :=
  match w with
  | .obj kvs => .ok (wlookup kvs k)
  | _ => .error ⟨"AttributeError",
      "'" ++ wireTypeName w ++ "' object has no attribute 'get'"⟩

/-- A column name read from the wire column list. -/
def colName : Wire → Except PyErr String
  | .str s => .ok s
  | _ => .error ⟨"TypeError", "column names must be strings"⟩

/-- `decode_pandas_df(df_info)`: decode the nested typed array, build the
frame from it and the column names, then apply the explicit index when it
is truthy. -/
def decode_pandas_df (df_info : Wire) : Except PyErr Frame := do
  let dataW ← pyGetItem df_info "data"
  let data ← decode_numpy_array dataW
  let colsW ← pyGetItem df_info "columns"
  let idxW := (← pyDictGet df_info "index").getD .null
  let cols ← match colsW with
    | .arr xs => xs.mapM colName
    | _ => Except.error ⟨"TypeError", "'" ++ wireTypeName colsW ++ "' object is not iterable"⟩
  match data.shape with
  | [r, c] =>
      if c ≠ cols.length then
        Except.error ⟨"ValueError", "Shape of passed values is not aligned"⟩
      else if truthyW idxW then
        match idxW with
        | .arr l =>
            if l.length = r then pure ⟨cols, data, some l⟩
            else Except.error ⟨"ValueError", "Length mismatch"⟩
        | _ => Except.error ⟨"TypeError", "Index must be a collection"⟩
      else
        pure ⟨cols, data, Option.none⟩
  | _ => Except.error ⟨"ValueError", "Shape of passed values is not aligned"⟩

mutual
/-- `wire_to_python`: wire (JSON-like) to native Python, recursive and
depth-first, with the marker-key chain of the source guarded by the
capability flags. -/
def wire_to_python (caps : Caps) : Wire → Except PyErr PyValue
  | .obj kvs =>
      if ((wlookup kvs "__numpy_array__").isSome && caps.numpy) = true then
        (decode_numpy_array ((wlookup kvs "__numpy_array__").getD .null)).map .ndarray
      else if ((wlookup kvs "__pandas_df__").isSome && caps.pandas) = true then
        (decode_pandas_df ((wlookup kvs "__pandas_df__").getD .null)).map .frame
      else if (wlookup kvs "__bytes__").isSome = true then
        (pyB64decode ((wlookup kvs "__bytes__").getD .null)).map .bytes
      else
        (wtpKVs caps kvs).map .dict
  | .arr xs => (wtpList caps xs).map .list
  | .null => .ok .none
  | .bool b => .ok (.bool b)
  | .int n => .ok (.int n)
  | .float bits => .ok (.float bits)
  | .str s => .ok (.str s)

def wtpList (caps : Caps) : List Wire → Except PyErr (List PyValue)
  | [] => .ok []
  | x :: xs => do
      let v ← wire_to_python caps x
      let vs ← wtpList caps xs
      pure (v :: vs)

def wtpKVs (caps : Caps) : List (String × Wire) → Except PyErr (List (String × PyValue))
  | [] => .ok []
  | (k, x) :: xs => do
      let v ← wire_to_python caps x
      let vs ← wtpKVs caps xs
      pure ((k, v) :: vs)
end

/-! ## Encode direction (`python_to_wire` and helpers) -/

/-- `encode_numpy_array(arr)`: dtype tag, shape, and the raw bytes of the
array (little-endian elements, C order) base64-encoded. -/
def encode_numpy_array (a : NDArray) : Wire :=
  .obj [("dtype", .str (dtypeTag a.dtype)),
        ("shape", .arr (a.shape.map (fun n => .int (Int.ofNat n)))),
        ("data", .str (b64encode (a.data.flatMap (natToLE (itemsize a.dtype)))))]

/-- `encode_pandas_df(df)`: column names, the encoded value array, and the
index list (or `null` for the trivial `RangeIndex`). -/
def encode_pandas_df (df : Frame) : Wire :=
  .obj [("columns", .arr (df.columns.map .str)),
        ("data", encode_numpy_array df.data),
        ("index", match df.index with
                  | some l => .arr l
                  | Option.none => .null)]

mutual
/-- `python_to_wire`: native Python to JSON-serializable wire form.  This
embeds the instance in which numpy and pandas imported successfully (in an
instance where an import failed, the corresponding value kinds cannot
exist at all). -/
def python_to_wire : PyValue → Except PyErr Wire
  | .none => .ok .null
  | .bool b => .ok (.bool b)
  | .int n => .ok (.int n)
  | .float bits => .ok (.float bits)
  | .str s => .ok (.str s)
  | .bytes bs => .ok (.obj [("__bytes__", .str (b64encode bs))])
  | .list xs => (ptwList xs).map .arr
  | .tuple xs => (ptwList xs).map .arr
  | .dict kvs => (ptwKVs kvs).map .obj
  | .ndarray a => .ok (.obj [("__numpy_array__", encode_numpy_array a)])
  | .frame df => .ok (.obj [("__pandas_df__", encode_pandas_df df)])
  | .series values => .ok (.obj [("__numpy_array__", encode_numpy_array values)])
  | .pyobj (.yields xs) sr =>
      match ptwList xs with
      | .ok ws => .ok (.arr ws)
      | .error _ => .ok (.str sr)
  | .pyobj .raises sr => .ok (.str sr)
  | .pyobj .noIter sr => .ok (.str sr)

def ptwList : List PyValue → Except PyErr (List Wire)
  | [] => .ok []
  | x :: xs => do
      let w ← python_to_wire x
      let ws ← ptwList xs
      pure (w :: ws)

def ptwKVs : List (String × PyValue) → Except PyErr (List (String × Wire))
  | [] => .ok []
  | (k, x) :: xs => do
      let w ← python_to_wire x
      let ws ← ptwKVs xs
      pure ((k, w) :: ws)
end

/-! ## Dispatch loop (`main`) -/

/-- A callable resolved from the registry: applied to the decoded `a` value
and to the decoded `k` value when the latter is truthy (`fn(*args, **kwargs)`
versus `fn(*args)`); it returns a result or raises.  Its behaviour, argument
unpacking included, is an opaque collaborator of the bridge. -/
def Callable := PyValue → Option PyValue → Except PyErr PyValue

/-- The opaque runtime environment: `importlib` module resolution (a module
maps attribute names to callables or raises), and `sys.version_info[:2]`. -/
structure Env where
  importMod : String → Except PyErr (String → Except PyErr Callable)
  pyVersion : Int × Int

/-- Python `k in w` on a JSON-decoded value (`"cmd" in req`): key test for
mappings, membership for sequences, substring test for strings, `TypeError`
for the rest. -/
def pyContains (w : Wire) (k : String) : Except PyErr Bool :=
  match w with
  | .obj kvs => .ok (wlookup kvs k).isSome
  | .arr xs => .ok (xs.any (fun x => match x with
      | .str s => s = k
      | _ => false))
  | .str s => .ok ((s.splitOn k).length ≥ 2)
  | _ => .error ⟨"TypeError",
      "argument of type '" ++ wireTypeName w ++ "' is not iterable"⟩

/-- Whether a single array element is falsy: a zero bit pattern, including
the negative-zero patterns of the float kinds. -/
def elemFalsy (d : Dtype) (p : Nat) : Bool :=
  p = 0 || (d = .f64 && p = 2 ^ 63) || (d = .f32 && p = 2 ^ 31)

/-- Python truthiness of a native value (`if kwargs:`): arrays of one
element defer to the element, larger ones raise the ambiguity `ValueError`,
as do frames; opaque objects default to truthy. -/
def pyTruthy : PyValue → Except PyErr Bool
  | .none => .ok false
  | .bool b => .ok b
  | .int n => .ok (n != 0)
  | .float bits => .ok (!(bits = 0 || bits = 2 ^ 63))
  | .str s => .ok (s != "")
  | .bytes bs => .ok (!bs.isEmpty)
  | .list xs => .ok (!xs.isEmpty)
  | .tuple xs => .ok (!xs.isEmpty)
  | .dict kvs => .ok (!kvs.isEmpty)
  | .ndarray a =>
      match a.data with
      | [] => .ok false
      | [p] => .ok (!elemFalsy a.dtype p)
      | _ => .error ⟨"ValueError",
          "The truth value of an array with more than one element is ambiguous"⟩
  | .series v =>
      match v.data with
      | [] => .ok false
      | [p] => .ok (!elemFalsy v.dtype p)
      | _ => .error ⟨"ValueError", "The truth value of a Series is ambiguous"⟩
  | .frame _ => .error ⟨"ValueError", "The truth value of a DataFrame is ambiguous"⟩
  | .pyobj _ _ => .ok true

/-- How a JSON-decoded value renders inside an f-string error message. -/
def wireFStr : Wire → String
  | .null => "None"
  | .bool true => "True"
  | .bool false => "False"
  | .int n => toString n
  | .float _ => "<float>"
  | .str s => s
  | .arr _ => "<list>"
  | .obj _ => "<dict>"

/-- The `except` chain wrapped around resolution and invocation: each caught
exception class gets its message prefix, unlisted classes fall through to
`{type(e).__name__}: {str(e)}`. -/
def classifyInner (mw fw : Wire) (e : PyErr) : String :=
  if e.kind = "ImportError" ∨ e.kind = "ModuleNotFoundError" then
    "Module not found: " ++ wireFStr mw ++ " - " ++ e.msg
  else if e.kind = "AttributeError" then
    "Function not found: " ++ wireFStr fw ++ " in " ++ wireFStr mw ++ " - " ++ e.msg
  else if e.kind = "TypeError" then
    "Type error: " ++ e.msg
  else if e.kind = "ValueError" ∨ e.kind = "binascii.Error" ∨
          e.kind = "json.JSONDecodeError" then
    "Value error: " ++ e.msg
  else
    e.kind ++ ": " ++ e.msg

/-- Resolve the module and function, decide the keyword form, call, and
encode the result as `{"ok": ...}`.  Any raise escapes to the caller's
`except` chain.  `import_module` on a non-string touches `.startswith`
first; `getattr` demands a string name. -/
def innerInvoke (env : Env) (mw fw : Wire) (args kwargs : PyValue) :
    Except PyErr Wire := do
  let mtab ← match mw with
    | .str s => env.importMod s
    | _ => Except.error ⟨"AttributeError",
        "'" ++ wireTypeName mw ++ "' object has no attribute 'startswith'"⟩
  let fn ← match fw with
    | .str s => mtab s
    | _ => Except.error ⟨"TypeError", "attribute name must be string"⟩
  let kw ← pyTruthy kwargs
  let result ← fn args (if kw then some kwargs else Option.none)
  let wire ← python_to_wire result
  pure (Wire.obj [("ok", wire)])

/-- The error response envelope `{"error": s}`. -/
def errEnv (s : String) : Wire := .obj [("error", .str s)]

/-- The non-control path of the loop body: extract `m`/`f` with `""`
defaults, decode `a`/`k` eagerly, then the missing-name check, then the
guarded invocation. -/
def dispatchCall (cfg : Caps) (env : Env) (req : Wire) : Except PyErr Wire := do
  let mw := (← pyDictGet req "m").getD (.str "")
  let fw := (← pyDictGet req "f").getD (.str "")
  let args ← wire_to_python cfg ((← pyDictGet req "a").getD (.arr []))
  let kwargs ← wire_to_python cfg ((← pyDictGet req "k").getD (.obj []))
  if !truthyW mw || !truthyW fw then
    pure (errEnv "missing m or f")
  else
    match innerInvoke env mw fw args kwargs with
    | .ok out => pure out
    | .error e => pure (errEnv (classifyInner mw fw e))

/-- The `health` response payload. -/
def healthWire (cfg : Caps) (env : Env) : Wire :=
  .obj [("ok", .obj [("ok", .bool true),
                     ("numpy", .bool cfg.numpy),
                     ("pandas", .bool cfg.pandas),
                     ("python_version", .arr [.int env.pyVersion.1,
                                              .int env.pyVersion.2])])]

/-- The loop body on one parsed request: the control-command check, falling
through to dispatch when `cmd` is absent or unrecognized. -/
def handleBody (cfg : Caps) (env : Env) (req : Wire) : Except PyErr Wire := do
  let hasCmd ← pyContains req "cmd"
  if hasCmd then
    let cmd ← pyGetItem req "cmd"
    match cmd with
    | .str "ping" => pure (Wire.obj [("ok", .str "pong")])
    | .str "health" => pure (healthWire cfg env)
    | _ => dispatchCall cfg env req
  else
    dispatchCall cfg env req

/-- One parsed line through the whole `try`/`except` of the loop body:
everything the body raises is converted to a `Bridge error` response
(`json.JSONDecodeError` cannot arise past parsing). -/
def handleLine (cfg : Caps) (env : Env) (req : Wire) : Wire :=
  match handleBody cfg env req with
  | .ok out => out
  | .error e => errEnv ("Bridge error: " ++ e.msg)

/-- One physical input line after `json.loads` is attempted: blank after
stripping, rejected by the JSON parser, or parsed to a wire value. -/
inductive LineInput where
  | empty
  | invalid (msg : String)
  | parsed (w : Wire)

/-- The response lines one input line produces: none for a blank line, one
otherwise. -/
def stepOutputs (cfg : Caps) (env : Env) : LineInput → List Wire
  | .empty => []
  | .invalid msg => [errEnv ("Invalid JSON: " ++ msg)]
  | .parsed w => [handleLine cfg env w]

/-- The startup readiness envelope. -/
def readyWire (cfg : Caps) : Wire :=
  .obj [("ready", .bool true), ("numpy", .bool cfg.numpy),
        ("pandas", .bool cfg.pandas)]

/-- The whole loop over a finite input prefix: the readiness line, then the
responses of each line in order. -/
def runLoop (cfg : Caps) (env : Env) (ls : List LineInput) : List Wire :=
  readyWire cfg :: ls.flatMap (stepOutputs cfg env)

/-- Whether a wire value is an `{"error": <string>}` response envelope. -/
def isErrEnv : Wire → Bool
  | .obj [("error", .str _)] => true
  | _ => false

/-! ## Claim-support definitions -/

/-- The extended-variant instance: both optional imports succeeded. -/
def fullCaps : Caps := ⟨true, true⟩

/-- Encode a native value and decode the wire result back
(`wire_to_python(python_to_wire(v))`). -/
def roundTrip (v : PyValue) : Except PyErr PyValue :=
  (python_to_wire v).bind (wire_to_python fullCaps)

/-- The reserved marker keys of §3. -/
def isMarkerKey (k : String) : Bool :=
  k = "__bytes__" || k = "__numpy_array__" || k = "__pandas_df__"

/-- Structural well-formedness of an array: the flat data has one bit
pattern per cell of the shape, each within the dtype's width. -/
def ndarrayWF (a : NDArray) : Bool :=
  (a.data.length = a.shape.prod) && a.data.all (· < 256 ^ itemsize a.dtype)

/-- A wire scalar (an index entry of a Tabular Frame). -/
def wireScalarB : Wire → Bool
  | .null => true
  | .bool _ => true
  | .int _ => true
  | .float _ => true
  | .str _ => true
  | _ => false

/-- Well-formedness of a Tabular Frame per §3: a 2-D backing array whose
second dimension matches the column count, and an explicit index only when
non-trivial (non-empty, one scalar entry per row). -/
def frameWF (df : Frame) : Bool :=
  ndarrayWF df.data &&
  (match df.data.shape, df.index with
   | [r, c], some l =>
       (c = df.columns.length) && !l.isEmpty && (l.length = r) &&
         l.all wireScalarB
   | [_, c], Option.none => c = df.columns.length
   | _, _ => false)

mutual
/-- Membership in the Extended Value grammar of §3: JSON scalars,
sequences, string-keyed mappings without reserved marker keys, byte
buffers, well-formed Typed Arrays, well-formed Tabular Frames. -/
def isExtB : PyValue → Bool
  | .none => true
  | .bool _ => true
  | .int _ => true
  | .float _ => true
  | .str _ => true
  | .bytes bs => bs.all (· < 256)
  | .list xs => isExtListB xs
  | .dict kvs => isExtKVsB kvs
  | .ndarray a => ndarrayWF a
  | .frame df => frameWF df
  | .tuple _ => false
  | .series _ => false
  | .pyobj _ _ => false

def isExtListB : List PyValue → Bool
  | [] => true
  | x :: xs => isExtB x && isExtListB xs

def isExtKVsB : List (String × PyValue) → Bool
  | [] => true
  | (k, v) :: rest => !isMarkerKey k && isExtB v && isExtKVsB rest
end

mutual
/-- Every Typed Array inside the value (directly or nested) has at least
one dimension. -/
def noZeroDimB : PyValue → Bool
  | .ndarray a => !a.shape.isEmpty
  | .frame df => !df.data.shape.isEmpty
  | .series v => !v.shape.isEmpty
  | .list xs => noZeroDimListB xs
  | .tuple xs => noZeroDimListB xs
  | .dict kvs => noZeroDimKVsB kvs
  | _ => true

def noZeroDimListB : List PyValue → Bool
  | [] => true
  | x :: xs => noZeroDimB x && noZeroDimListB xs

def noZeroDimKVsB : List (String × PyValue) → Bool
  | [] => true
  | (_, v) :: rest => noZeroDimB v && noZeroDimKVsB rest
end

/-- Whether the envelope carries a recognized control command. -/
def recognizedCmd (kvs : List (String × Wire)) : Bool :=
  match wlookup kvs "cmd" with
  | some (.str "ping") => true
  | some (.str "health") => true
  | _ => false

/-- `req.get("m", "")` of a parsed mapping envelope. -/
def mOf (kvs : List (String × Wire)) : Wire := (wlookup kvs "m").getD (.str "")

/-- `req.get("f", "")` of a parsed mapping envelope. -/
def fOf (kvs : List (String × Wire)) : Wire := (wlookup kvs "f").getD (.str "")

/-- Decode the `a` and `k` payloads of a mapping envelope, with their
`[]` / `{}` defaults, in the order `main` does. -/
def decodeArgsKw (cfg : Caps) (kvs : List (String × Wire)) :
    Except PyErr (PyValue × PyValue) := do
  let a ← wire_to_python cfg ((wlookup kvs "a").getD (.arr []))
  let k ← wire_to_python cfg ((wlookup kvs "k").getD (.obj []))
  pure (a, k)

/-- Whether a wire value is a JSON mapping. -/
def isObjW : Wire → Bool
  | .obj _ => true
  | _ => false

/-- The malformed input lines enumerated by the totality property: a line
the JSON parser rejects, an envelope that is not a mapping, an envelope
whose argument payloads raise while decoding, one lacking a (truthy)
module or function name, and one whose resolution or invocation raises —
all relative to the instance configuration and registry, and none carrying
a recognized control command. -/
inductive Malformed (cfg : Caps) (env : Env) : LineInput → Prop where
  | invalidJson (msg : String) : Malformed cfg env (.invalid msg)
  | notMapping (w : Wire) (h : isObjW w = false) : Malformed cfg env (.parsed w)
  | argsRaise (kvs : List (String × Wire)) (hc : recognizedCmd kvs = false)
      (e : PyErr) (h : decodeArgsKw cfg kvs = .error e) :
      Malformed cfg env (.parsed (.obj kvs))
  | missingName (kvs : List (String × Wire)) (hc : recognizedCmd kvs = false)
      (args kwargs : PyValue) (hd : decodeArgsKw cfg kvs = .ok (args, kwargs))
      (h : truthyW (mOf kvs) = false ∨ truthyW (fOf kvs) = false) :
      Malformed cfg env (.parsed (.obj kvs))
  | invokeRaises (kvs : List (String × Wire)) (hc : recognizedCmd kvs = false)
      (args kwargs : PyValue) (hd : decodeArgsKw cfg kvs = .ok (args, kwargs))
      (hm : truthyW (mOf kvs) = true) (hf : truthyW (fOf kvs) = true)
      (e : PyErr)
      (h : innerInvoke env (mOf kvs) (fOf kvs) args kwargs = .error e) :
      Malformed cfg env (.parsed (.obj kvs))

/-- A registry with no modules at all. -/
def emptyEnv : Env :=
  ⟨fun m => .error ⟨"ModuleNotFoundError", "No module named '" ++ m ++ "'"⟩,
   (3, 11)⟩

/-- A registry resolving every name to one fixed callable. -/
def stubEnv (fn : Callable) : Env :=
  ⟨fun _ => .ok (fun _ => .ok fn), (3, 11)⟩

/-- The minimal-variant instance: neither optional import succeeded. -/
def noCaps : Caps := ⟨false, false⟩

/-- A callable that ignores its arguments and returns `None`. -/
def nullFn : Callable := fun _ _ => .ok .none

/-- Signed reading of a 32-bit two's-complement pattern. -/
def i32Val (p : Nat) : Int :=
  if p < 2 ^ 31 then (p : Int) else (p : Int) - 2 ^ 32

/-- View a 2-D array as a matrix (list of rows) of its elements read
through `f`. -/
def toMatrix2 (a : NDArray) (f : Nat → Int) : Option (List (List Int)) :=
  match a.shape with
  | [r, c] =>
      if a.data.length = r * c then
        some ((List.range r).map (fun i => ((a.data.drop (i * c)).take c).map f))
      else Option.none
  | _ => Option.none

/-! ## Helper lemmas -/

theorem natToLE_length (k v : Nat) : (natToLE k v).length = k := by
  induction k generalizing v with
  | zero => rfl
  | succ k ih => simp [natToLE, ih]

theorem natFromLE_natToLE (k v : Nat) (h : v < 256 ^ k) :
    natFromLE (natToLE k v) = v := by
  induction k generalizing v with
  | zero => simp [pow_zero] at h; simp [natToLE, natFromLE, h]
  | succ k ih =>
      have hv : v / 256 < 256 ^ k := by
        rw [Nat.div_lt_iff_lt_mul (by norm_num)]
        calc v < 256 ^ (k + 1) := h
        _ = 256 ^ k * 256 := by ring
      simp [natToLE, natFromLE, ih _ hv]
      omega

theorem bytesToElems_flatMap (k : Nat) (es : List Nat)
    (h : ∀ e ∈ es, e < 256 ^ (k + 1)) :
    bytesToElems k (es.flatMap (natToLE (k + 1))) = es := by
  induction es with
  | nil => simp [bytesToElems]
  | cons e es ih =>
      have he : e < 256 ^ (k + 1) := h e (by simp)
      have hrest : ∀ x ∈ es, x < 256 ^ (k + 1) := fun x hx => h x (by simp [hx])
      have hlen : (natToLE k (e / 256)).length = k := natToLE_length ..
      rw [List.flatMap_cons]
      show bytesToElems k (natToLE (k + 1) e ++ es.flatMap (natToLE (k + 1))) = _
      rw [show natToLE (k + 1) e = e % 256 :: natToLE k (e / 256) from rfl,
          List.cons_append, bytesToElems]
      rw [List.take_append_of_le_length (by omega),
          List.drop_append_of_le_length (by omega)]
      rw [List.take_of_length_le (by omega), List.drop_of_length_le (by omega),
          List.nil_append]
      have hdiv : e / 256 < 256 ^ k := by
        rw [Nat.div_lt_iff_lt_mul (by norm_num)]
        calc e < 256 ^ (k + 1) := he
        _ = 256 ^ k * 256 := by ring
      rw [ih hrest]
      have : natFromLE (e % 256 :: natToLE k (e / 256)) = e := by
        simp [natFromLE, natFromLE_natToLE k _ hdiv]; omega
      rw [this]

/-! ### base64 round-trip -/

theorem charSextet_sextetChar : ∀ n, n < 64 → charSextet (sextetChar n) = some n := by
  decide

theorem sextetChar_ne_pad : ∀ n, n < 64 → (sextetChar n = '=') = False := by
  decide

theorem charSextet_pad : charSextet '=' = Option.none := by decide

theorem filter_encodeChunks (bs : List Nat) (h : ∀ x ∈ bs, x < 256) :
    (encodeChunks bs).filter (fun c => (charSextet c).isSome || c = '=') =
      encodeChunks bs := by
  induction bs using encodeChunks.induct with
  | case1 => rfl
  | case2 a =>
      have h1 := charSextet_sextetChar (a / 4) (by have := h a (by simp); omega)
      have h2 := charSextet_sextetChar (a % 4 * 16) (by have := h a (by simp); omega)
      simp [encodeChunks, List.filter, h1, h2]
  | case3 a b =>
      have ha := h a (by simp)
      have hb := h b (by simp)
      have h1 := charSextet_sextetChar (a / 4) (by omega)
      have h2 := charSextet_sextetChar (a % 4 * 16 + b / 16) (by omega)
      have h3 := charSextet_sextetChar (b % 16 * 4) (by omega)
      simp [encodeChunks, List.filter, h1, h2, h3]
  | case4 a b c rest ih =>
      have ha := h a (by simp)
      have hb := h b (by simp)
      have hc := h c (by simp)
      have h1 := charSextet_sextetChar (a / 4) (by omega)
      have h2 := charSextet_sextetChar (a % 4 * 16 + b / 16) (by omega)
      have h3 := charSextet_sextetChar (b % 16 * 4 + c / 64) (by omega)
      have h4 := charSextet_sextetChar (c % 64) (by omega)
      have ihh := ih (fun x hx => h x (by simp [hx]))
      simp [encodeChunks, List.filter, h1, h2, h3, h4] at ihh ⊢
      exact ihh

theorem decodeQuads_encodeChunks (bs : List Nat) (h : ∀ x ∈ bs, x < 256) :
    decodeQuads ((encodeChunks bs).filterMap charSextet) = bs := by
  induction bs using encodeChunks.induct with
  | case1 => rfl
  | case2 a =>
      have ha := h a (by simp)
      have h1 := charSextet_sextetChar (a / 4) (by omega)
      have h2 := charSextet_sextetChar (a % 4 * 16) (by omega)
      simp [encodeChunks, List.filterMap, h1, h2, charSextet_pad, decodeQuads]
      omega
  | case3 a b =>
      have ha := h a (by simp)
      have hb := h b (by simp)
      have h1 := charSextet_sextetChar (a / 4) (by omega)
      have h2 := charSextet_sextetChar (a % 4 * 16 + b / 16) (by omega)
      have h3 := charSextet_sextetChar (b % 16 * 4) (by omega)
      simp [encodeChunks, List.filterMap, h1, h2, h3, charSextet_pad, decodeQuads]
      constructor <;> omega
  | case4 a b c rest ih =>
      have ha := h a (by simp)
      have hb := h b (by simp)
      have hc := h c (by simp)
      have h1 := charSextet_sextetChar (a / 4) (by omega)
      have h2 := charSextet_sextetChar (a % 4 * 16 + b / 16) (by omega)
      have h3 := charSextet_sextetChar (b % 16 * 4 + c / 64) (by omega)
      have h4 := charSextet_sextetChar (c % 64) (by omega)
      have ihh := ih (fun x hx => h x (by simp [hx]))
      simp only [encodeChunks, List.filterMap_cons, h1, h2, h3, h4, decodeQuads]
      rw [ihh]
      simp only [List.cons.injEq]
      exact ⟨by omega, by omega, by omega, trivial⟩

theorem encodeChunks_counts (bs : List Nat) (h : ∀ x ∈ bs, x < 256) :
    ((encodeChunks bs).filterMap charSextet).length % 4 ≠ 1 ∧
      (((encodeChunks bs).filterMap charSextet).length +
        ((encodeChunks bs).filter (fun c => c = '=')).length) % 4 = 0 := by
  induction bs using encodeChunks.induct with
  | case1 => simp [encodeChunks]
  | case2 a =>
      have ha := h a (by simp)
      have h1 := charSextet_sextetChar (a / 4) (by omega)
      have h2 := charSextet_sextetChar (a % 4 * 16) (by omega)
      have n1 := sextetChar_ne_pad (a / 4) (by omega)
      have n2 := sextetChar_ne_pad (a % 4 * 16) (by omega)
      simp [encodeChunks, List.filterMap, List.filter, charSextet_pad,
            h1, h2, n1, n2]
  | case3 a b =>
      have ha := h a (by simp)
      have hb := h b (by simp)
      have h1 := charSextet_sextetChar (a / 4) (by omega)
      have h2 := charSextet_sextetChar (a % 4 * 16 + b / 16) (by omega)
      have h3 := charSextet_sextetChar (b % 16 * 4) (by omega)
      have n1 := sextetChar_ne_pad (a / 4) (by omega)
      have n2 := sextetChar_ne_pad (a % 4 * 16 + b / 16) (by omega)
      have n3 := sextetChar_ne_pad (b % 16 * 4) (by omega)
      simp [encodeChunks, List.filterMap, List.filter, charSextet_pad,
            h1, h2, h3, n1, n2, n3]
  | case4 a b c rest ih =>
      have ha := h a (by simp)
      have hb := h b (by simp)
      have hc := h c (by simp)
      have h1 := charSextet_sextetChar (a / 4) (by omega)
      have h2 := charSextet_sextetChar (a % 4 * 16 + b / 16) (by omega)
      have h3 := charSextet_sextetChar (b % 16 * 4 + c / 64) (by omega)
      have h4 := charSextet_sextetChar (c % 64) (by omega)
      have n1 := sextetChar_ne_pad (a / 4) (by omega)
      have n2 := sextetChar_ne_pad (a % 4 * 16 + b / 16) (by omega)
      have n3 := sextetChar_ne_pad (b % 16 * 4 + c / 64) (by omega)
      have n4 := sextetChar_ne_pad (c % 64) (by omega)
      have ihh := ih (fun x hx => h x (by simp [hx]))
      simp [encodeChunks, List.filterMap_cons, List.filter_cons,
            h1, h2, h3, h4, n1, n2, n3, n4] at ihh ⊢
      omega

/-- `base64.b64decode` inverts `base64.b64encode` on byte lists. -/
theorem b64decode_b64encode (bs : List Nat) (h : ∀ x ∈ bs, x < 256) :
    b64decodeStr (b64encode bs) = .ok bs := by
  have hfil := filter_encodeChunks bs h
  have hcnt := encodeChunks_counts bs h
  have hdec := decodeQuads_encodeChunks bs h
  show b64decodeStr (String.mk (encodeChunks bs)) = .ok bs
  unfold b64decodeStr
  have htl : (String.mk (encodeChunks bs)).toList = encodeChunks bs := rfl
  rw [htl, hfil]
  rw [if_neg (by simpa using hcnt.1), if_neg (by simpa using hcnt.2)]
  exact congrArg Except.ok hdec


/-! ### Dispatch-loop reduction lemmas -/

theorem decodeArgsKw_ok {cfg : Caps} {kvs : List (String × Wire)}
    {args kwargs : PyValue} (hd : decodeArgsKw cfg kvs = .ok (args, kwargs)) :
    wire_to_python cfg ((wlookup kvs "a").getD (.arr [])) = .ok args ∧
    wire_to_python cfg ((wlookup kvs "k").getD (.obj [])) = .ok kwargs := by
  unfold decodeArgsKw at hd
  rcases ha : wire_to_python cfg ((wlookup kvs "a").getD (.arr [])) with e | av <;>
    rw [ha] at hd
  · simp [Bind.bind, Except.bind] at hd
  · rcases hk : wire_to_python cfg ((wlookup kvs "k").getD (.obj [])) with e2 | kv <;>
      rw [hk] at hd
    · simp [Bind.bind, Except.bind] at hd
    · simp [Bind.bind, Except.bind, pure, Except.pure] at hd
      exact ⟨by rw [hd.1], by rw [hd.2]⟩

theorem bind_ok {α β : Type} (a : α) (f : α → Except PyErr β) :
    (Except.ok a >>= f) = f a := rfl

theorem bind_err {α β : Type} (e : PyErr) (f : α → Except PyErr β) :
    ((Except.error e : Except PyErr α) >>= f) = Except.error e := rfl

theorem map_ok {α β : Type} (a : α) (f : α → β) :
    (f <$> (Except.ok a : Except PyErr α)) = Except.ok (f a) := rfl

theorem map_err {α β : Type} (e : PyErr) (f : α → β) :
    (f <$> (Except.error e : Except PyErr α)) = Except.error e := rfl

theorem pyContains_obj (kvs : List (String × Wire)) (k : String) :
    pyContains (.obj kvs) k = .ok (wlookup kvs k).isSome := rfl

theorem pyGetItem_obj_some {kvs : List (String × Wire)} {k : String} {v : Wire}
    (h : wlookup kvs k = some v) : pyGetItem (.obj kvs) k = .ok v := by
  simp [pyGetItem, h]

theorem handleBody_ping (cfg : Caps) (env : Env) (kvs : List (String × Wire))
    (h : wlookup kvs "cmd" = some (.str "ping")) :
    handleBody cfg env (.obj kvs) = .ok (Wire.obj [("ok", .str "pong")]) := by
  simp [handleBody, pyContains_obj, h, bind_ok, pyGetItem_obj_some h, pure,
        Except.pure]

theorem handleBody_no_cmd (cfg : Caps) (env : Env) (kvs : List (String × Wire))
    (hc : recognizedCmd kvs = false) :
    handleBody cfg env (.obj kvs) = dispatchCall cfg env (.obj kvs) := by
  unfold recognizedCmd at hc
  rcases hcmd : wlookup kvs "cmd" with _ | cw
  · simp [handleBody, pyContains_obj, hcmd, bind_ok]
  · rw [hcmd] at hc
    cases cw with
    | str s =>
        have hping : s ≠ "ping" := by rintro rfl; simp at hc
        have hhealth : s ≠ "health" := by rintro rfl; simp at hc
        simp only [handleBody, pyContains_obj, hcmd, bind_ok, Option.isSome_some,
                   if_true, pyGetItem_obj_some hcmd]
        split
        · rename_i h
          injection h with h2
          exact absurd h2 hping
        · rename_i h
          injection h with h2
          exact absurd h2 hhealth
        · rfl
    | null => simp [handleBody, pyContains_obj, hcmd, bind_ok, pyGetItem_obj_some hcmd]
    | bool b => simp [handleBody, pyContains_obj, hcmd, bind_ok, pyGetItem_obj_some hcmd]
    | int n => simp [handleBody, pyContains_obj, hcmd, bind_ok, pyGetItem_obj_some hcmd]
    | float bits => simp [handleBody, pyContains_obj, hcmd, bind_ok, pyGetItem_obj_some hcmd]
    | arr xs => simp [handleBody, pyContains_obj, hcmd, bind_ok, pyGetItem_obj_some hcmd]
    | obj kvs2 => simp [handleBody, pyContains_obj, hcmd, bind_ok, pyGetItem_obj_some hcmd]

theorem handleBody_health (cfg : Caps) (env : Env) (kvs : List (String × Wire))
    (h : wlookup kvs "cmd" = some (.str "health")) :
    handleBody cfg env (.obj kvs) = .ok (healthWire cfg env) := by
  simp [handleBody, pyContains_obj, h, bind_ok, pyGetItem_obj_some h, pure,
        Except.pure]

theorem wlookup_cons_ne {key k : String} (v : Wire) (kvs : List (String × Wire))
    (h : key ≠ k) : wlookup ((key, v) :: kvs) k = wlookup kvs k := by
  simp [wlookup, h]

theorem handleLine_of_body_ok {cfg : Caps} {env : Env} {req out : Wire}
    (h : handleBody cfg env req = .ok out) : handleLine cfg env req = out := by
  simp [handleLine, h]

theorem handleLine_of_body_err {cfg : Caps} {env : Env} {req : Wire} {e : PyErr}
    (h : handleBody cfg env req = .error e) :
    handleLine cfg env req = errEnv ("Bridge error: " ++ e.msg) := by
  simp [handleLine, h]

theorem dispatchCall_decoded (cfg : Caps) (env : Env) (kvs : List (String × Wire))
    {args kwargs : PyValue} (hd : decodeArgsKw cfg kvs = .ok (args, kwargs)) :
    dispatchCall cfg env (.obj kvs) =
      if !truthyW (mOf kvs) || !truthyW (fOf kvs) then
        .ok (errEnv "missing m or f")
      else
        match innerInvoke env (mOf kvs) (fOf kvs) args kwargs with
        | .ok out => .ok out
        | .error e => .ok (errEnv (classifyInner (mOf kvs) (fOf kvs) e)) := by
  obtain ⟨ha, hk⟩ := decodeArgsKw_ok hd
  simp [dispatchCall, pyDictGet, mOf, fOf, ha, hk, bind_ok, pure, Except.pure]

theorem dispatchCall_decode_err (cfg : Caps) (env : Env)
    (kvs : List (String × Wire)) {e : PyErr}
    (hd : decodeArgsKw cfg kvs = .error e) :
    dispatchCall cfg env (.obj kvs) = .error e := by
  rcases ha : wire_to_python cfg ((wlookup kvs "a").getD (.arr [])) with e1 | av
  · have he : e1 = e := by
      simp [decodeArgsKw, ha, Bind.bind, Except.bind] at hd
      exact hd
    subst he
    simp [dispatchCall, pyDictGet, ha, bind_ok, bind_err]
  · rcases hk : wire_to_python cfg ((wlookup kvs "k").getD (.obj [])) with e2 | kv
    · have he : e2 = e := by
        simp [decodeArgsKw, ha, hk, Bind.bind, Except.bind, Functor.map,
              Except.map] at hd
        exact hd
      subst he
      simp [dispatchCall, pyDictGet, ha, hk, bind_ok, bind_err]
    · exfalso
      simp [decodeArgsKw, ha, hk, Bind.bind, Except.bind, Functor.map,
            Except.map, pure, Except.pure] at hd

/-! ### Round-trip lemmas for arrays and frames -/

theorem itemsize_pos (d : Dtype) : 1 ≤ itemsize d := by
  cases d <;> simp [itemsize]

theorem tagToDtype_dtypeTag (d : Dtype) : tagToDtype (dtypeTag d) = d := by
  cases d <;> rfl

theorem natToLE_lt (k v : Nat) : ∀ b ∈ natToLE k v, b < 256 := by
  induction k generalizing v with
  | zero => simp [natToLE]
  | succ k ih =>
      intro b hb
      rcases List.mem_cons.mp hb with rfl | hb
      · exact Nat.mod_lt _ (by norm_num)
      · exact ih _ b hb

theorem length_flatMap_natToLE (k : Nat) (es : List Nat) :
    (es.flatMap (natToLE k)).length = k * es.length := by
  induction es with
  | nil => simp
  | cons e es ih =>
      simp [List.flatMap_cons, natToLE_length, ih, Nat.mul_succ]
      omega

theorem dimsToInts_int_map (ns : List Nat) :
    dimsToInts (ns.map (fun n => Wire.int (Int.ofNat n))) =
      .ok (ns.map Int.ofNat) := by
  induction ns with
  | nil => rfl
  | cons n ns ih =>
      simp only [List.map_cons, dimsToInts, ih]
      rfl

theorem mapM_colName_loop (cols : List String) (acc : List String) :
    List.mapM.loop colName (cols.map Wire.str) acc = .ok (acc.reverse ++ cols) := by
  induction cols generalizing acc with
  | nil => simp [List.mapM.loop, pure, Except.pure]
  | cons c cols ih =>
      simp [List.mapM.loop, colName, bind_ok, ih]

theorem mapM_colName (cols : List String) :
    (cols.map Wire.str).mapM colName = .ok cols := by
  have h := mapM_colName_loop cols []
  simpa [List.mapM] using h

theorem wlookup_eq_none (kvs : List (String × Wire)) (k : String)
    (h : ∀ p ∈ kvs, p.1 ≠ k) : wlookup kvs k = Option.none := by
  induction kvs with
  | nil => rfl
  | cons p rest ih =>
      obtain ⟨k', v⟩ := p
      simp [wlookup, h (k', v) (by simp)]
      exact ih fun q hq => h q (by simp [hq])

theorem isExtKVsB_spec (kvs : List (String × PyValue)) (h : isExtKVsB kvs = true) :
    ∀ p ∈ kvs, isMarkerKey p.1 = false ∧ isExtB p.2 = true := by
  induction kvs with
  | nil => simp
  | cons p rest ih =>
      obtain ⟨k, v⟩ := p
      simp only [isExtKVsB, Bool.and_eq_true, Bool.not_eq_true'] at h
      intro q hq
      rcases List.mem_cons.mp hq with rfl | hq
      · exact ⟨h.1.1, h.1.2⟩
      · exact ih h.2 q hq

theorem decode_encode_numpy (a : NDArray) (hwf : ndarrayWF a = true)
    (hs : a.shape ≠ []) : decode_numpy_array (encode_numpy_array a) = .ok a := by
  obtain ⟨d, shape, data⟩ := a
  simp only [ndarrayWF, Bool.and_eq_true, decide_eq_true_eq, List.all_eq_true] at hwf
  obtain ⟨hlen, hbound⟩ := hwf
  have hbytes : ∀ b ∈ data.flatMap (natToLE (itemsize d)), b < 256 := by
    intro b hb
    rcases List.mem_flatMap.mp hb with ⟨e, _, hbe⟩
    exact natToLE_lt _ e b hbe
  have hb64 := b64decode_b64encode (data.flatMap (natToLE (itemsize d))) hbytes
  have hit : itemsize d - 1 + 1 = itemsize d := by
    have := itemsize_pos d
    omega
  have helems :
      bytesToElems (itemsize d - 1) (data.flatMap (natToLE (itemsize d))) = data := by
    have hb : ∀ e ∈ data, e < 256 ^ (itemsize d - 1 + 1) := by
      rw [hit]
      intro e he
      exact hbound e he
    have h2 := bytesToElems_flatMap (itemsize d - 1) data hb
    rw [hit] at h2
    exact h2
  have hmod : (data.flatMap (natToLE (itemsize d))).length % itemsize d = 0 := by
    rw [length_flatMap_natToLE]
    exact Nat.mul_mod_right _ _
  simp only [encode_numpy_array, decode_numpy_array]
  rw [pyGetItem_obj_some (show wlookup
      [("dtype", Wire.str (dtypeTag d)),
       ("shape", Wire.arr (shape.map (fun n => Wire.int (Int.ofNat n)))),
       ("data", Wire.str (b64encode (data.flatMap (natToLE (itemsize d)))))]
      "dtype" = some (.str (dtypeTag d)) by simp [wlookup])]
  rw [pyGetItem_obj_some (show wlookup
      [("dtype", Wire.str (dtypeTag d)),
       ("shape", Wire.arr (shape.map (fun n => Wire.int (Int.ofNat n)))),
       ("data", Wire.str (b64encode (data.flatMap (natToLE (itemsize d)))))]
      "shape" = some (.arr (shape.map (fun n => Wire.int (Int.ofNat n)))) by
        simp [wlookup])]
  rw [pyGetItem_obj_some (show wlookup
      [("dtype", Wire.str (dtypeTag d)),
       ("shape", Wire.arr (shape.map (fun n => Wire.int (Int.ofNat n)))),
       ("data", Wire.str (b64encode (data.flatMap (natToLE (itemsize d)))))]
      "data" = some (.str (b64encode (data.flatMap (natToLE (itemsize d))))) by
        simp [wlookup])]
  simp only [bind_ok, pure, Except.pure, pyIterElems, pyB64decode, hb64,
             tagToDtype_dtypeTag, hmod, helems]
  rw [if_neg (by simp [hmod])]
  rw [if_neg (by simp [hs])]
  rw [dimsToInts_int_map]
  simp only [bind_ok]
  have hcomp : ∀ l : List Nat, (l.map Int.ofNat).map Int.toNat = l := by
    intro l
    induction l with
    | nil => rfl
    | cons x xs ih => simp [ih, Int.toNat_ofNat]
  rw [if_pos ⟨by simp, by rw [hcomp]; exact hlen.symm⟩]
  rw [hcomp]

theorem decode_encode_pandas (df : Frame) (hwf : frameWF df = true) :
    decode_pandas_df (encode_pandas_df df) = .ok df := by
  obtain ⟨cols, data, idx⟩ := df
  rcases hsh : data.shape with _ | ⟨r, tail⟩
  · rcases idx with _ | l <;> simp [frameWF, hsh] at hwf
  · rcases tail with _ | ⟨c, tail2⟩
    · rcases idx with _ | l <;> simp [frameWF, hsh] at hwf
    · rcases tail2 with _ | ⟨x, tail3⟩
      · rcases idx with _ | l
        · simp only [frameWF, hsh, Bool.and_eq_true, decide_eq_true_eq] at hwf
          obtain ⟨hnd, hc⟩ := hwf
          have hdn := decode_encode_numpy data hnd (by rw [hsh]; simp)
          have e1 : encode_pandas_df ⟨cols, data, Option.none⟩ =
              .obj [("columns", .arr (cols.map .str)),
                    ("data", encode_numpy_array data), ("index", .null)] := rfl
          rw [e1]
          unfold decode_pandas_df
          rw [show pyGetItem (Wire.obj [("columns", Wire.arr (cols.map .str)),
              ("data", encode_numpy_array data), ("index", Wire.null)]) "data" =
              .ok (encode_numpy_array data) from rfl, bind_ok, hdn, bind_ok]
          rw [show pyGetItem (Wire.obj [("columns", Wire.arr (cols.map .str)),
              ("data", encode_numpy_array data), ("index", Wire.null)]) "columns" =
              .ok (.arr (cols.map .str)) from rfl, bind_ok]
          rw [show pyDictGet (Wire.obj [("columns", Wire.arr (cols.map .str)),
              ("data", encode_numpy_array data), ("index", Wire.null)]) "index" =
              .ok (some Wire.null) from rfl, bind_ok]
          simp only [Option.getD_some]
          rw [mapM_colName, bind_ok, hsh]
          simp [hc, truthyW, pure, Except.pure]
        · simp only [frameWF, hsh, Bool.and_eq_true, Bool.not_eq_true',
                     decide_eq_true_eq, List.all_eq_true] at hwf
          obtain ⟨hnd, ⟨⟨hc, hne⟩, hlr⟩, hsc⟩ := hwf
          have hdn := decode_encode_numpy data hnd (by rw [hsh]; simp)
          have e1 : encode_pandas_df ⟨cols, data, some l⟩ =
              .obj [("columns", .arr (cols.map .str)),
                    ("data", encode_numpy_array data), ("index", .arr l)] := rfl
          rw [e1]
          unfold decode_pandas_df
          rw [show pyGetItem (Wire.obj [("columns", Wire.arr (cols.map .str)),
              ("data", encode_numpy_array data), ("index", Wire.arr l)]) "data" =
              .ok (encode_numpy_array data) from rfl, bind_ok, hdn, bind_ok]
          rw [show pyGetItem (Wire.obj [("columns", Wire.arr (cols.map .str)),
              ("data", encode_numpy_array data), ("index", Wire.arr l)]) "columns" =
              .ok (.arr (cols.map .str)) from rfl, bind_ok]
          rw [show pyDictGet (Wire.obj [("columns", Wire.arr (cols.map .str)),
              ("data", encode_numpy_array data), ("index", Wire.arr l)]) "index" =
              .ok (some (Wire.arr l)) from rfl, bind_ok]
          simp only [Option.getD_some]
          rw [mapM_colName, bind_ok, hsh]
          simp [hc, truthyW, hne, hlr, pure, Except.pure]
      · rcases idx with _ | l <;> simp [frameWF, hsh] at hwf

theorem isMarkerKey_false_ne {k : String} (h : isMarkerKey k = false) :
    k ≠ "__numpy_array__" ∧ k ≠ "__pandas_df__" ∧ k ≠ "__bytes__" := by
  simp only [isMarkerKey, Bool.or_eq_false_iff, decide_eq_false_iff_not] at h
  exact ⟨h.1.2, h.2, h.1.1⟩

theorem round_trip_aux (n : Nat) :
    (∀ v : PyValue, sizeOf v ≤ n → isExtB v = true → noZeroDimB v = true →
      ∃ w, python_to_wire v = .ok w ∧ wire_to_python fullCaps w = .ok v) ∧
    (∀ xs : List PyValue, sizeOf xs ≤ n → isExtListB xs = true →
      noZeroDimListB xs = true →
      ∃ ws, ptwList xs = .ok ws ∧ wtpList fullCaps ws = .ok xs) ∧
    (∀ kvs : List (String × PyValue), sizeOf kvs ≤ n → isExtKVsB kvs = true →
      noZeroDimKVsB kvs = true →
      ∃ ws, ptwKVs kvs = .ok ws ∧ ws.map Prod.fst = kvs.map Prod.fst ∧
        wtpKVs fullCaps ws = .ok kvs) := by
  induction n with
  | zero =>
      refine ⟨fun v hv _ _ => ?_, fun xs hxs _ _ => ?_, fun kvs hkvs _ _ => ?_⟩
      · cases v <;> simp at hv
      · cases xs <;> simp at hxs
      · cases kvs <;> simp at hkvs
  | succ n ih =>
      obtain ⟨ihv, ihl, ihk⟩ := ih
      refine ⟨fun v hv hext hdim => ?_, fun xs hxs hext hdim => ?_,
              fun kvs hkvs hext hdim => ?_⟩
      · cases v with
        | none => exact ⟨.null, by simp [python_to_wire], by simp [wire_to_python]⟩
        | bool b =>
            exact ⟨.bool b, by simp [python_to_wire], by simp [wire_to_python]⟩
        | int i =>
            exact ⟨.int i, by simp [python_to_wire], by simp [wire_to_python]⟩
        | float b =>
            exact ⟨.float b, by simp [python_to_wire], by simp [wire_to_python]⟩
        | str s =>
            exact ⟨.str s, by simp [python_to_wire], by simp [wire_to_python]⟩
        | bytes bs =>
            simp only [isExtB, List.all_eq_true, decide_eq_true_eq] at hext
            refine ⟨.obj [("__bytes__", .str (b64encode bs))],
              by simp [python_to_wire], ?_⟩
            have hb := b64decode_b64encode bs hext
            simp [wire_to_python, wlookup, fullCaps, pyB64decode, hb, Except.map]
        | list xs =>
            simp only [isExtB] at hext
            simp only [noZeroDimB] at hdim
            obtain ⟨ws, h1, h2⟩ := ihl xs (by simp at hv; omega) hext hdim
            exact ⟨.arr ws, by simp [python_to_wire, h1, Except.map],
              by simp [wire_to_python, h2, Except.map]⟩
        | dict kvs =>
            simp only [isExtB] at hext
            simp only [noZeroDimB] at hdim
            obtain ⟨ws, h1, hkeys, h2⟩ := ihk kvs (by simp at hv; omega) hext hdim
            have hmk : ∀ p ∈ ws, p.1 ≠ "__numpy_array__" ∧
                p.1 ≠ "__pandas_df__" ∧ p.1 ≠ "__bytes__" := by
              intro p hp
              have hp1 : p.1 ∈ kvs.map Prod.fst := by
                rw [← hkeys]
                exact List.mem_map_of_mem _ hp
              obtain ⟨q, hq, hq1⟩ := List.mem_map.mp hp1
              have hqm := (isExtKVsB_spec kvs hext q hq).1
              rw [hq1] at hqm
              exact isMarkerKey_false_ne hqm
            have hnp : wlookup ws "__numpy_array__" = Option.none :=
              wlookup_eq_none ws _ (fun p hp => (hmk p hp).1)
            have hpd : wlookup ws "__pandas_df__" = Option.none :=
              wlookup_eq_none ws _ (fun p hp => (hmk p hp).2.1)
            have hby : wlookup ws "__bytes__" = Option.none :=
              wlookup_eq_none ws _ (fun p hp => (hmk p hp).2.2)
            exact ⟨.obj ws, by simp [python_to_wire, h1, Except.map],
              by simp [wire_to_python, hnp, hpd, hby, h2, Except.map]⟩
        | ndarray a =>
            simp only [isExtB] at hext
            simp only [noZeroDimB, Bool.not_eq_true', List.isEmpty_eq_false] at hdim
            have hda := decode_encode_numpy a hext hdim
            refine ⟨.obj [("__numpy_array__", encode_numpy_array a)],
              by simp [python_to_wire], ?_⟩
            simp [wire_to_python, wlookup, fullCaps, hda, Except.map]
        | frame df =>
            simp only [isExtB] at hext
            have hdf := decode_encode_pandas df hext
            refine ⟨.obj [("__pandas_df__", encode_pandas_df df)],
              by simp [python_to_wire], ?_⟩
            simp [wire_to_python, wlookup, fullCaps, hdf, Except.map]
        | tuple xs => simp [isExtB] at hext
        | series vals => simp [isExtB] at hext
        | pyobj it sr => simp [isExtB] at hext
      · cases xs with
        | nil => exact ⟨[], rfl, rfl⟩
        | cons x rest =>
            simp only [isExtListB, Bool.and_eq_true] at hext
            simp only [noZeroDimListB, Bool.and_eq_true] at hdim
            obtain ⟨w, hw1, hw2⟩ :=
              ihv x (by simp at hxs; omega) hext.1 hdim.1
            obtain ⟨ws, hs1, hs2⟩ :=
              ihl rest (by simp at hxs; omega) hext.2 hdim.2
            exact ⟨w :: ws,
              by simp [ptwList, hw1, hs1, bind_ok, Bind.bind, Except.bind, pure,
                       Except.pure],
              by simp [wtpList, hw2, hs2, bind_ok, Bind.bind, Except.bind, pure,
                       Except.pure]⟩
      · cases kvs with
        | nil => exact ⟨[], rfl, rfl, rfl⟩
        | cons kx rest =>
            obtain ⟨k, x⟩ := kx
            simp only [isExtKVsB, Bool.and_eq_true] at hext
            simp only [noZeroDimKVsB, Bool.and_eq_true] at hdim
            obtain ⟨w, hw1, hw2⟩ :=
              ihv x (by simp at hkvs; omega) hext.1.2 hdim.1
            obtain ⟨ws, hs1, hskeys, hs2⟩ :=
              ihk rest (by simp at hkvs; omega) hext.2 hdim.2
            refine ⟨(k, w) :: ws,
              by simp [ptwKVs, hw1, hs1, bind_ok, Bind.bind, Except.bind, pure,
                       Except.pure],
              by simp [hskeys],
              by simp [wtpKVs, hw2, hs2, bind_ok, Bind.bind, Except.bind, pure,
                       Except.pure]⟩

theorem isErrEnv_errEnv (s : String) : isErrEnv (errEnv s) = true := rfl

theorem isErrEnv_exists {w : Wire} (h : isErrEnv w = true) :
    ∃ s, w = errEnv s := by
  unfold isErrEnv at h
  split at h
  · rename_i s
    exact ⟨s, rfl⟩
  · simp at h

theorem handleLine_not_obj (cfg : Caps) (env : Env) (w : Wire)
    (hw : isObjW w = false) : isErrEnv (handleLine cfg env w) = true := by
  cases w with
  | null => rfl
  | bool b => rfl
  | int n => rfl
  | float bits => rfl
  | str s =>
      cases hd : (decide ((s.splitOn "cmd").length ≥ 2)) <;>
        simp [handleLine, handleBody, pyContains, hd, pyGetItem, dispatchCall,
              pyDictGet, isErrEnv, errEnv, bind_ok, bind_err, Bind.bind,
              Except.bind, pure, Except.pure]
  | arr xs =>
      cases hd : (xs.any fun x => match x with
          | Wire.str s => decide (s = "cmd")
          | _ => false) <;>
        simp [handleLine, handleBody, pyContains, hd, pyGetItem, dispatchCall,
              pyDictGet, isErrEnv, errEnv, bind_ok, bind_err, Bind.bind,
              Except.bind, pure, Except.pure]
  | obj kvs => simp [isObjW] at hw

theorem malformed_one_error (cfg : Caps) (env : Env) (l : LineInput)
    (h : Malformed cfg env l) : ∃ s, stepOutputs cfg env l = [errEnv s] := by
  cases h with
  | invalidJson msg => exact ⟨"Invalid JSON: " ++ msg, rfl⟩
  | notMapping w hw =>
      obtain ⟨s, hs⟩ := isErrEnv_exists (handleLine_not_obj cfg env w hw)
      exact ⟨s, by simp [stepOutputs, hs]⟩
  | argsRaise kvs hc e hd =>
      have hb := handleBody_no_cmd cfg env kvs hc
      rw [dispatchCall_decode_err _ _ _ hd] at hb
      exact ⟨"Bridge error: " ++ e.msg, by simp [stepOutputs, handleLine_of_body_err hb]⟩
  | missingName kvs hc args kwargs hd hmf =>
      have hb := handleBody_no_cmd cfg env kvs hc
      rw [dispatchCall_decoded _ _ _ hd] at hb
      have hcond : (!truthyW (mOf kvs) || !truthyW (fOf kvs)) = true := by
        rcases hmf with h | h <;> simp [h]
      rw [hcond] at hb
      simp only [if_true] at hb
      exact ⟨"missing m or f", by simp [stepOutputs, handleLine_of_body_ok hb]⟩
  | invokeRaises kvs hc args kwargs hd hm hf e hinv =>
      have hb := handleBody_no_cmd cfg env kvs hc
      rw [dispatchCall_decoded _ _ _ hd] at hb
      rw [hm, hf, hinv] at hb
      simp only [Bool.not_true, Bool.or_self, if_false, Bool.false_or] at hb
      exact ⟨classifyInner (mOf kvs) (fOf kvs) e,
        by simp [stepOutputs, handleLine_of_body_ok hb]⟩

/-! ## Claims -/

/-- C8: the wire value `{"__numpy_array__": {"dtype": "i32", "shape": [2, 2],
"data": base64 of the 16 bytes encoding 1, 2, 3, 4 as 4-byte little-endian
integers}}` decodes, with array support enabled, to the 2-by-2 signed 32-bit
integer matrix `[[1, 2], [3, 4]]`.  The first conjunct pins the data string
as the base64 encoding of those 16 bytes; the second runs the decoder; the
third reads the decoded array as a signed matrix. -/
theorem typed_array_decode_scenario :
    b64encode [1, 0, 0, 0, 2, 0, 0, 0, 3, 0, 0, 0, 4, 0, 0, 0] =
      "AQAAAAIAAAADAAAABAAAAA==" ∧
    wire_to_python fullCaps (.obj [("__numpy_array__", .obj
        [("dtype", .str "i32"), ("shape", .arr [.int 2, .int 2]),
         ("data", .str "AQAAAAIAAAADAAAABAAAAA==")])]) =
      .ok (.ndarray ⟨.i32, [2, 2], [1, 2, 3, 4]⟩) ∧
    toMatrix2 ⟨.i32, [2, 2], [1, 2, 3, 4]⟩ i32Val = some [[1, 2], [3, 4]] := by
  refine ⟨rfl, ?_, rfl⟩
  simp [wire_to_python, wlookup, fullCaps, decode_numpy_array, pyGetItem,
        tagToDtype, pyIterElems, dimsToInts, pyB64decode, b64decodeStr,
        charSextet, decodeQuads, bytesToElems, itemsize, natFromLE,
        bind_ok, bind_err, Bind.bind, Except.bind, Except.map, pure,
        Except.pure]

/-- C6: an envelope whose `cmd` field is the string `"ping"` is answered
with exactly `{"ok": "pong"}` for every registry environment — module
resolution and invocation are never attempted — even when `m` and `f` are
also present. -/
theorem ping_bypasses_dispatch (cfg : Caps) (env : Env)
    (kvs : List (String × Wire)) (h : wlookup kvs "cmd" = some (.str "ping")) :
    handleLine cfg env (.obj kvs) = .obj [("ok", .str "pong")] :=
  handleLine_of_body_ok (handleBody_ping cfg env kvs h)

/-- Witness for C6 at the envelope `{"cmd": "ping", "m": "math", "f": "sqrt"}`. -/
theorem ping_bypasses_dispatch_witness :
    wlookup [("cmd", Wire.str "ping"), ("m", Wire.str "math"),
             ("f", Wire.str "sqrt")] "cmd" = some (.str "ping") ∧
    handleLine fullCaps emptyEnv
        (.obj [("cmd", .str "ping"), ("m", .str "math"), ("f", .str "sqrt")]) =
      .obj [("ok", .str "pong")] :=
  ⟨rfl, ping_bypasses_dispatch fullCaps emptyEnv _ rfl⟩

/-- C4 counterexample: the envelope `{"a": [{"__bytes__": 7}]}` lacks both
`m` and `f` and carries no control command, yet the response is a `Bridge
error` (the `a` payload is decoded eagerly, before the name check, and
`b64decode(7)` raises `TypeError`), not `{"error": "missing m or f"}`. -/
theorem missing_name_eager_decode_counterexample :
    handleLine fullCaps emptyEnv
        (.obj [("a", .arr [.obj [("__bytes__", .int 7)]])]) =
      errEnv
        "Bridge error: argument should be a bytes-like object or ASCII string, not 'int'" ∧
    handleLine fullCaps emptyEnv
        (.obj [("a", .arr [.obj [("__bytes__", .int 7)]])]) ≠
      errEnv "missing m or f" := by
  have hd : decodeArgsKw fullCaps [("a", Wire.arr [.obj [("__bytes__", .int 7)]])] =
      .error ⟨"TypeError",
        "argument should be a bytes-like object or ASCII string, not 'int'"⟩ := by
    simp [decodeArgsKw, wlookup, wire_to_python, wtpList, wtpKVs, pyB64decode,
          wireTypeName, bind_ok, bind_err, Bind.bind, Except.bind, Except.map,
          pure, Except.pure]
  have hb := handleBody_no_cmd fullCaps emptyEnv
    [("a", Wire.arr [.obj [("__bytes__", .int 7)]])] rfl
  rw [dispatchCall_decode_err fullCaps emptyEnv _ hd] at hb
  have h1 := handleLine_of_body_err hb
  refine ⟨h1, ?_⟩
  rw [h1]
  simp [errEnv]

/-- C4 (amended): for a parsed mapping envelope with no recognized control
command, *whose `a`/`k` payloads decode without raising*, a missing or
falsy module or function name yields exactly `{"error": "missing m or f"}`,
for every registry environment.  (Unamended, the claim is false: argument
decoding is eager, not lazy, so a raising payload pre-empts the name
check — see the counterexample.) -/
theorem missing_name_check (cfg : Caps) (env : Env)
    (kvs : List (String × Wire)) (hc : recognizedCmd kvs = false)
    (args kwargs : PyValue) (hd : decodeArgsKw cfg kvs = .ok (args, kwargs))
    (h : truthyW (mOf kvs) = false ∨ truthyW (fOf kvs) = false) :
    handleLine cfg env (.obj kvs) = errEnv "missing m or f" := by
  have hb := handleBody_no_cmd cfg env kvs hc
  rw [dispatchCall_decoded cfg env kvs hd] at hb
  have hcond : (!truthyW (mOf kvs) || !truthyW (fOf kvs)) = true := by
    rcases h with h | h <;> simp [h]
  rw [hcond] at hb
  simp only [if_true] at hb
  exact handleLine_of_body_ok hb

/-- Witness for C4 (amended) at the envelope `{"f": "g"}`. -/
theorem missing_name_check_witness :
    recognizedCmd [("f", Wire.str "g")] = false ∧
    decodeArgsKw fullCaps [("f", Wire.str "g")] = .ok (.list [], .dict []) ∧
    truthyW (mOf [("f", Wire.str "g")]) = false ∧
    handleLine fullCaps emptyEnv (.obj [("f", .str "g")]) =
      errEnv "missing m or f" := by
  have hd : decodeArgsKw fullCaps [("f", Wire.str "g")] = .ok (.list [], .dict []) := by
    simp [decodeArgsKw, wlookup, wire_to_python, wtpList, wtpKVs, bind_ok,
          Bind.bind, Except.bind, Except.map, pure, Except.pure]
  exact ⟨rfl, hd, rfl,
    missing_name_check fullCaps emptyEnv _ rfl (.list []) (.dict []) hd
      (Or.inl rfl)⟩

/-- C9: an envelope in which `m` or `f` is present but bound to a falsy
value is handled exactly like the same envelope with that field absent; in
particular (when no control command is recognized and the argument payloads
decode without raising) the response is `{"error": "missing m or f"}`, with
no import or lookup attempted (the response is the same for every
registry). -/
theorem falsy_name_treated_as_missing (cfg : Caps) (env : Env) (key : String)
    (hkey : key = "m" ∨ key = "f") (v : Wire) (hv : truthyW v = false)
    (kvs : List (String × Wire)) (hmiss : wlookup kvs key = Option.none) :
    handleLine cfg env (.obj ((key, v) :: kvs)) = handleLine cfg env (.obj kvs) ∧
    (recognizedCmd kvs = false →
      ∀ args kwargs : PyValue, decodeArgsKw cfg kvs = .ok (args, kwargs) →
      handleLine cfg env (.obj ((key, v) :: kvs)) = errEnv "missing m or f") := by
  have hne_cmd : key ≠ "cmd" := by rcases hkey with rfl | rfl <;> decide
  have hne_a : key ≠ "a" := by rcases hkey with rfl | rfl <;> decide
  have hne_k : key ≠ "k" := by rcases hkey with rfl | rfl <;> decide
  have hcmd_eq : wlookup ((key, v) :: kvs) "cmd" = wlookup kvs "cmd" :=
    wlookup_cons_ne v kvs hne_cmd
  have hrc_eq : recognizedCmd ((key, v) :: kvs) = recognizedCmd kvs := by
    unfold recognizedCmd
    rw [hcmd_eq]
  have hd_eq : decodeArgsKw cfg ((key, v) :: kvs) = decodeArgsKw cfg kvs := by
    unfold decodeArgsKw
    rw [wlookup_cons_ne v kvs hne_a, wlookup_cons_ne v kvs hne_k]
  cases hrc : recognizedCmd kvs with
  | true =>
      unfold recognizedCmd at hrc
      rcases hcm : wlookup kvs "cmd" with _ | cw <;> rw [hcm] at hrc
      · simp at hrc
      · cases cw with
        | str s =>
            by_cases hs : s = "ping"
            · subst hs
              have hL := handleBody_ping cfg env ((key, v) :: kvs)
                (by rw [hcmd_eq, hcm])
              have hR := handleBody_ping cfg env kvs hcm
              refine ⟨by rw [handleLine_of_body_ok hL, handleLine_of_body_ok hR],
                fun h' => absurd h' (by simp [recognizedCmd, hcm])⟩
            · by_cases hh : s = "health"
              · subst hh
                have hL := handleBody_health cfg env ((key, v) :: kvs)
                  (by rw [hcmd_eq, hcm])
                have hR := handleBody_health cfg env kvs hcm
                refine ⟨by rw [handleLine_of_body_ok hL, handleLine_of_body_ok hR],
                  fun h' => absurd h' (by simp [recognizedCmd, hcm])⟩
              · exfalso
                split at hrc
                · rename_i heq
                  exact hs (by simpa using heq)
                · rename_i heq
                  exact hh (by simpa using heq)
                · simp at hrc
        | null => simp at hrc
        | bool b => simp at hrc
        | int n => simp at hrc
        | float bits => simp at hrc
        | arr xs => simp at hrc
        | obj kvs2 => simp at hrc
  | false =>
      have hb1 := handleBody_no_cmd cfg env ((key, v) :: kvs) (hrc_eq.trans hrc)
      have hb2 := handleBody_no_cmd cfg env kvs hrc
      rcases hd : decodeArgsKw cfg kvs with e | ⟨args, kwargs⟩
      · have hd1 : decodeArgsKw cfg ((key, v) :: kvs) = .error e := hd_eq.trans hd
        rw [dispatchCall_decode_err _ _ _ hd1] at hb1
        rw [dispatchCall_decode_err _ _ _ hd] at hb2
        refine ⟨by rw [handleLine_of_body_err hb1, handleLine_of_body_err hb2], ?_⟩
        intro h' args kwargs hdok
        simp at hdok
      · have hd1 : decodeArgsKw cfg ((key, v) :: kvs) = .ok (args, kwargs) :=
          hd_eq.trans hd
        rw [dispatchCall_decoded _ _ _ hd1] at hb1
        rw [dispatchCall_decoded _ _ _ hd] at hb2
        have hcondL : (!truthyW (mOf ((key, v) :: kvs)) ||
            !truthyW (fOf ((key, v) :: kvs))) = true := by
          rcases hkey with rfl | rfl
          · have hm : mOf (("m", v) :: kvs) = v := by simp [mOf, wlookup]
            simp [hm, hv]
          · have hf : fOf (("f", v) :: kvs) = v := by simp [fOf, wlookup]
            simp [hf, hv]
        have hcondR : (!truthyW (mOf kvs) || !truthyW (fOf kvs)) = true := by
          rcases hkey with rfl | rfl
          · have hm : mOf kvs = .str "" := by simp [mOf, hmiss]
            simp [hm, truthyW]
          · have hf : fOf kvs = .str "" := by simp [fOf, hmiss]
            simp [hf, truthyW]
        rw [hcondL] at hb1
        rw [hcondR] at hb2
        simp only [if_true] at hb1 hb2
        exact ⟨by rw [handleLine_of_body_ok hb1, handleLine_of_body_ok hb2],
               fun _ _ _ _ => handleLine_of_body_ok hb1⟩

/-- Witness for C9 at `{"m": "", "f": "g"}` versus `{"f": "g"}`. -/
theorem falsy_name_treated_as_missing_witness :
    truthyW (Wire.str "") = false ∧
    wlookup [("f", Wire.str "g")] "m" = Option.none ∧
    handleLine fullCaps emptyEnv (.obj [("m", .str ""), ("f", .str "g")]) =
      handleLine fullCaps emptyEnv (.obj [("f", .str "g")]) ∧
    handleLine fullCaps emptyEnv (.obj [("m", .str ""), ("f", .str "g")]) =
      errEnv "missing m or f" := by
  have hd : decodeArgsKw fullCaps [("f", Wire.str "g")] = .ok (.list [], .dict []) := by
    simp [decodeArgsKw, wlookup, wire_to_python, wtpList, wtpKVs, bind_ok,
          Bind.bind, Except.bind, Except.map, pure, Except.pure]
  have h := falsy_name_treated_as_missing fullCaps emptyEnv "m" (Or.inl rfl)
    (Wire.str "") rfl [("f", Wire.str "g")] rfl
  exact ⟨rfl, rfl, h.1, h.2 rfl (.list []) (.dict []) hd⟩

/-- C1 counterexample: the 0-dimensional Typed Array (dtype `u8`, shape
`()`, one element `5`) is constructible from the grammar of §3, yet
`wire_to_python(python_to_wire(v))` returns the 1-dimensional array of
shape `(1,)`: the decoder reshapes only when the shape sequence is
non-empty (`if shape:`), so the empty shape is replaced by the flat
buffer's shape.  The round-trip result is observationally distinguishable
from `v` (its shape differs). -/
theorem wire_round_trip_zero_dim_counterexample :
    isExtB (.ndarray ⟨.u8, [], [5]⟩) = true ∧
    roundTrip (.ndarray ⟨.u8, [], [5]⟩) = .ok (.ndarray ⟨.u8, [1], [5]⟩) ∧
    roundTrip (.ndarray ⟨.u8, [], [5]⟩) ≠ .ok (.ndarray ⟨.u8, [], [5]⟩) := by
  have h1 : isExtB (.ndarray ⟨.u8, [], [5]⟩) = true := by
    simp [isExtB, ndarrayWF, itemsize]
  have h2 : roundTrip (.ndarray ⟨.u8, [], [5]⟩) = .ok (.ndarray ⟨.u8, [1], [5]⟩) := by
    simp [roundTrip, python_to_wire, encode_numpy_array, dtypeTag, itemsize,
          natToLE, b64encode, encodeChunks, sextetChar, wire_to_python, wlookup,
          fullCaps, decode_numpy_array, pyGetItem, tagToDtype, pyIterElems,
          dimsToInts, pyB64decode, b64decodeStr, charSextet, decodeQuads,
          bytesToElems, natFromLE, bind_ok, bind_err, Bind.bind, Except.bind,
          Except.map, pure, Except.pure]
  refine ⟨h1, h2, ?_⟩
  rw [h2]
  simp

/-- C1 (amended): for every Extended Value constructible from the grammar
of §3 *whose Typed Arrays all have at least one dimension*, decoding the
encoding returns the value exactly — scalars unchanged, byte buffers
bit-for-bit, numeric arrays element-wise bitwise (the data crosses the wire
as a raw little-endian byte copy, base64-encoded), frames with columns,
values and explicit index intact.  (Unamended the claim fails: a
0-dimensional array round-trips to shape `(1,)`, see the counterexample.) -/
theorem wire_round_trip (v : PyValue) (hext : isExtB v = true)
    (hdim : noZeroDimB v = true) : roundTrip v = .ok v := by
  obtain ⟨w, h1, h2⟩ := (round_trip_aux (sizeOf v)).1 v le_rfl hext hdim
  simp [roundTrip, h1, h2, bind_ok, Bind.bind, Except.bind]

/-- Witness for C1 (amended) on a value exercising every grammar
production: scalars, a sequence, a mapping, a byte buffer, a signed 32-bit
array (with a negative-pattern element), and a frame with an explicit
index. -/
theorem wire_round_trip_witness :
    isExtB (.dict [("xs", .list [.none, .bool true, .int (-2), .float 13,
        .str "a", .bytes [0, 255]]),
      ("arr", .ndarray ⟨.i32, [2], [1, 4294967295]⟩),
      ("df", .frame ⟨["c"], ⟨.f64, [1, 1], [4617315517961601024]⟩,
        some [.str "r"]⟩)]) = true ∧
    noZeroDimB (.dict [("xs", .list [.none, .bool true, .int (-2), .float 13,
        .str "a", .bytes [0, 255]]),
      ("arr", .ndarray ⟨.i32, [2], [1, 4294967295]⟩),
      ("df", .frame ⟨["c"], ⟨.f64, [1, 1], [4617315517961601024]⟩,
        some [.str "r"]⟩)]) = true ∧
    roundTrip (.dict [("xs", .list [.none, .bool true, .int (-2), .float 13,
        .str "a", .bytes [0, 255]]),
      ("arr", .ndarray ⟨.i32, [2], [1, 4294967295]⟩),
      ("df", .frame ⟨["c"], ⟨.f64, [1, 1], [4617315517961601024]⟩,
        some [.str "r"]⟩)]) =
      .ok (.dict [("xs", .list [.none, .bool true, .int (-2), .float 13,
        .str "a", .bytes [0, 255]]),
      ("arr", .ndarray ⟨.i32, [2], [1, 4294967295]⟩),
      ("df", .frame ⟨["c"], ⟨.f64, [1, 1], [4617315517961601024]⟩,
        some [.str "r"]⟩)]) := by
  have h1 : isExtB (.dict [("xs", .list [.none, .bool true, .int (-2), .float 13,
      .str "a", .bytes [0, 255]]),
      ("arr", .ndarray ⟨.i32, [2], [1, 4294967295]⟩),
      ("df", .frame ⟨["c"], ⟨.f64, [1, 1], [4617315517961601024]⟩,
        some [.str "r"]⟩)]) = true := by
    simp [isExtB, isExtKVsB, isExtListB, isMarkerKey, ndarrayWF, frameWF,
          wireScalarB, itemsize]
  have h2 : noZeroDimB (.dict [("xs", .list [.none, .bool true, .int (-2),
      .float 13, .str "a", .bytes [0, 255]]),
      ("arr", .ndarray ⟨.i32, [2], [1, 4294967295]⟩),
      ("df", .frame ⟨["c"], ⟨.f64, [1, 1], [4617315517961601024]⟩,
        some [.str "r"]⟩)]) = true := by
    simp [noZeroDimB, noZeroDimKVsB, noZeroDimListB]
  exact ⟨h1, h2, wire_round_trip _ h1 h2⟩

/-- C7: a wire mapping containing a reserved marker key (with the matching
capability enabled, and no earlier marker of the chain active) decodes to
the tagged type built from that marker's payload alone — the result depends
only on the payload, so every other key of the mapping is ignored. -/
theorem marker_precedence_over_plain (cfg : Caps) (kvs : List (String × Wire)) :
    (∀ av, wlookup kvs "__numpy_array__" = some av → cfg.numpy = true →
      wire_to_python cfg (.obj kvs) = (decode_numpy_array av).map .ndarray) ∧
    (∀ pv, wlookup kvs "__pandas_df__" = some pv → cfg.pandas = true →
      (wlookup kvs "__numpy_array__" = Option.none ∨ cfg.numpy = false) →
      wire_to_python cfg (.obj kvs) = (decode_pandas_df pv).map .frame) ∧
    (∀ bv, wlookup kvs "__bytes__" = some bv →
      (wlookup kvs "__numpy_array__" = Option.none ∨ cfg.numpy = false) →
      (wlookup kvs "__pandas_df__" = Option.none ∨ cfg.pandas = false) →
      wire_to_python cfg (.obj kvs) = (pyB64decode bv).map .bytes) := by
  refine ⟨?_, ?_, ?_⟩
  · intro av hav hnp
    simp [wire_to_python, hav, hnp]
  · intro pv hpv hpd hno
    rcases hno with hno | hno <;> simp [wire_to_python, hpv, hpd, hno]
  · intro bv hbv hno hpo
    rcases hno with hno | hno <;> rcases hpo with hpo | hpo <;>
      simp [wire_to_python, hbv, hno, hpo]

/-- Witness for C7: `{"__bytes__": "AA==", "x": 1}` decodes to the byte
buffer `[0]`, the extra key `"x"` ignored. -/
theorem marker_precedence_over_plain_witness :
    wlookup [("__bytes__", Wire.str "AA=="), ("x", Wire.int 1)] "__bytes__" =
      some (.str "AA==") ∧
    wire_to_python fullCaps
        (.obj [("__bytes__", .str "AA=="), ("x", .int 1)]) =
      (pyB64decode (.str "AA==")).map .bytes ∧
    (pyB64decode (Wire.str "AA==")).map PyValue.bytes = .ok (.bytes [0]) := by
  refine ⟨rfl, ?_, rfl⟩
  exact (marker_precedence_over_plain fullCaps
    [("__bytes__", Wire.str "AA=="), ("x", Wire.int 1)]).2.2
    (Wire.str "AA==") rfl (Or.inl rfl) (Or.inl rfl)

/-- C10: the decoder checks `__numpy_array__` first, then `__pandas_df__`,
then `__bytes__` (each only with its capability on); in particular a
mapping carrying both `__numpy_array__` and `__bytes__` (and no
`__pandas_df__`) decodes as a Typed Array when array support is enabled and
as a byte buffer when it is disabled. -/
theorem marker_chain_order (cfg : Caps) (kvs : List (String × Wire)) :
    (∀ av pv, wlookup kvs "__numpy_array__" = some av →
      wlookup kvs "__pandas_df__" = some pv → cfg.numpy = true →
      wire_to_python cfg (.obj kvs) = (decode_numpy_array av).map .ndarray) ∧
    (∀ av bv, wlookup kvs "__numpy_array__" = some av →
      wlookup kvs "__bytes__" = some bv →
      wlookup kvs "__pandas_df__" = Option.none →
      (cfg.numpy = true →
        wire_to_python cfg (.obj kvs) = (decode_numpy_array av).map .ndarray) ∧
      (cfg.numpy = false →
        wire_to_python cfg (.obj kvs) = (pyB64decode bv).map .bytes)) ∧
    (∀ pv bv, wlookup kvs "__pandas_df__" = some pv →
      wlookup kvs "__bytes__" = some bv →
      (wlookup kvs "__numpy_array__" = Option.none ∨ cfg.numpy = false) →
      cfg.pandas = true →
      wire_to_python cfg (.obj kvs) = (decode_pandas_df pv).map .frame) := by
  refine ⟨?_, ?_, ?_⟩
  · intro av pv hav hpv hnp
    simp [wire_to_python, hav, hnp]
  · intro av bv hav hbv hpo
    refine ⟨fun hnp => by simp [wire_to_python, hav, hnp], fun hnp => ?_⟩
    simp [wire_to_python, hav, hbv, hpo, hnp]
  · intro pv bv hpv hbv hno hpd
    rcases hno with hno | hno <;> simp [wire_to_python, hpv, hpd, hno]

/-- Witness for C10 at `{"__numpy_array__": {"dtype": "u8", "shape": [1],
"data": "AA=="}, "__bytes__": "AA=="}` under both configurations. -/
theorem marker_chain_order_witness :
    wire_to_python fullCaps (.obj
        [("__numpy_array__", .obj [("dtype", .str "u8"), ("shape", .arr [.int 1]),
          ("data", .str "AA==")]), ("__bytes__", .str "AA==")]) =
      .ok (.ndarray ⟨.u8, [1], [0]⟩) ∧
    wire_to_python noCaps (.obj
        [("__numpy_array__", .obj [("dtype", .str "u8"), ("shape", .arr [.int 1]),
          ("data", .str "AA==")]), ("__bytes__", .str "AA==")]) =
      .ok (.bytes [0]) := by
  constructor
  · have h := ((marker_chain_order fullCaps
      [("__numpy_array__", Wire.obj [("dtype", .str "u8"), ("shape", .arr [.int 1]),
        ("data", .str "AA==")]), ("__bytes__", Wire.str "AA==")]).2.1
      (Wire.obj [("dtype", .str "u8"), ("shape", .arr [.int 1]), ("data", .str "AA==")])
      (Wire.str "AA==") rfl rfl rfl).1 rfl
    rw [h]
    simp [decode_numpy_array, pyGetItem, wlookup, tagToDtype, pyIterElems,
          dimsToInts, pyB64decode, b64decodeStr, charSextet, decodeQuads,
          bytesToElems, itemsize, natFromLE, bind_ok, bind_err, Bind.bind,
          Except.bind, Except.map, pure, Except.pure]
  · have h := ((marker_chain_order noCaps
      [("__numpy_array__", Wire.obj [("dtype", .str "u8"), ("shape", .arr [.int 1]),
        ("data", .str "AA==")]), ("__bytes__", Wire.str "AA==")]).2.1
      (Wire.obj [("dtype", .str "u8"), ("shape", .arr [.int 1]), ("data", .str "AA==")])
      (Wire.str "AA==") rfl rfl rfl).2 rfl
    rw [h]
    rfl

/-- C3 counterexample: with both capabilities disabled, the envelope
`{"m": "mod", "f": "fn", "a": [{"__numpy_array__": ...}]}` produces a
normal `{"ok": ...}` response — the marker mapping is silently decoded as
a plain mapping (marker key preserved, payload values decoded recursively)
and handed to the callable; no error is reported. -/
theorem unsupported_marker_silent_decode :
    wire_to_python noCaps (.obj [("__numpy_array__", .obj
        [("dtype", .str "u8"), ("shape", .arr [.int 1]), ("data", .str "AA==")])]) =
      .ok (.dict [("__numpy_array__", .dict
        [("dtype", .str "u8"), ("shape", .list [.int 1]), ("data", .str "AA==")])]) ∧
    handleLine noCaps (stubEnv nullFn) (.obj [("m", .str "mod"), ("f", .str "fn"),
        ("a", .arr [.obj [("__numpy_array__", .obj
          [("dtype", .str "u8"), ("shape", .arr [.int 1]),
           ("data", .str "AA==")])]])]) =
      .obj [("ok", .null)] ∧
    isErrEnv (handleLine noCaps (stubEnv nullFn) (.obj [("m", .str "mod"),
        ("f", .str "fn"), ("a", .arr [.obj [("__numpy_array__", .obj
          [("dtype", .str "u8"), ("shape", .arr [.int 1]),
           ("data", .str "AA==")])]])])) = false := by
  refine ⟨?_, ?_, ?_⟩
  · simp [wire_to_python, wtpKVs, wtpList, wlookup, noCaps, bind_ok, Bind.bind,
          Except.bind, Except.map, pure, Except.pure]
  · simp [handleLine, handleBody, pyContains_obj, wlookup, dispatchCall,
          pyDictGet, wire_to_python, wtpKVs, wtpList, innerInvoke, stubEnv,
          nullFn, pyTruthy, python_to_wire, truthyW, noCaps, bind_ok, bind_err,
          Bind.bind, Except.bind, Except.map, pure, Except.pure]
  · simp [handleLine, handleBody, pyContains_obj, wlookup, dispatchCall,
          pyDictGet, wire_to_python, wtpKVs, wtpList, innerInvoke, stubEnv,
          nullFn, pyTruthy, python_to_wire, truthyW, noCaps, isErrEnv, bind_ok,
          bind_err, Bind.bind, Except.bind, Except.map, pure, Except.pure]

/-- C3 (amended): a marker mapping processed by an instance whose
corresponding capability is disabled is *silently decoded as a plain
mapping* — every value, the marker payload included, decoded recursively,
with no error — not rejected.  (The claim as stated, promising an explicit
error, is refuted by the counterexample: the `elif` chain guards each
marker with its capability flag and falls through to the plain-mapping
branch.) -/
theorem unsupported_marker_plain_mapping (cfg : Caps) (kvs : List (String × Wire)) :
    (∀ av, wlookup kvs "__numpy_array__" = some av → cfg.numpy = false →
      (wlookup kvs "__pandas_df__" = Option.none ∨ cfg.pandas = false) →
      wlookup kvs "__bytes__" = Option.none →
      wire_to_python cfg (.obj kvs) = (wtpKVs cfg kvs).map .dict) ∧
    (∀ pv, wlookup kvs "__pandas_df__" = some pv → cfg.pandas = false →
      (wlookup kvs "__numpy_array__" = Option.none ∨ cfg.numpy = false) →
      wlookup kvs "__bytes__" = Option.none →
      wire_to_python cfg (.obj kvs) = (wtpKVs cfg kvs).map .dict) := by
  constructor
  · intro av hav hnp hpo hbo
    rcases hpo with hpo | hpo <;> simp [wire_to_python, hav, hnp, hpo, hbo]
  · intro pv hpv hpd hno hbo
    rcases hno with hno | hno <;> simp [wire_to_python, hpv, hpd, hno, hbo]

/-- Witness for C3 (amended) at `{"__numpy_array__": {...}}` with numpy
disabled. -/
theorem unsupported_marker_plain_mapping_witness :
    noCaps.numpy = false ∧
    wlookup [("__numpy_array__", Wire.obj [("dtype", Wire.str "u8")])]
        "__numpy_array__" = some (.obj [("dtype", .str "u8")]) ∧
    wire_to_python noCaps (.obj [("__numpy_array__", .obj [("dtype", .str "u8")])]) =
      (wtpKVs noCaps [("__numpy_array__", Wire.obj [("dtype", Wire.str "u8")])]).map
        .dict := by
  refine ⟨rfl, rfl, ?_⟩
  exact (unsupported_marker_plain_mapping noCaps
    [("__numpy_array__", Wire.obj [("dtype", Wire.str "u8")])]).1
    (Wire.obj [("dtype", Wire.str "u8")]) rfl rfl (Or.inr rfl) rfl

theorem encoder_total_aux (n : Nat) :
    (∀ v : PyValue, sizeOf v ≤ n → (python_to_wire v).isOk = true) ∧
    (∀ xs : List PyValue, sizeOf xs ≤ n → (ptwList xs).isOk = true) ∧
    (∀ kvs : List (String × PyValue), sizeOf kvs ≤ n →
      (ptwKVs kvs).isOk = true) := by
  induction n with
  | zero =>
      refine ⟨fun v hv => ?_, fun xs hxs => ?_, fun kvs hkvs => ?_⟩
      · cases v <;> simp at hv
      · cases xs <;> simp at hxs
      · cases kvs <;> simp at hkvs
  | succ n ih =>
      obtain ⟨ihv, ihl, ihk⟩ := ih
      refine ⟨fun v hv => ?_, fun xs hxs => ?_, fun kvs hkvs => ?_⟩
      · cases v with
        | none => rfl
        | bool b => rfl
        | int i => rfl
        | float b => rfl
        | str s => rfl
        | bytes bs => rfl
        | ndarray a => rfl
        | frame df => rfl
        | series vals => rfl
        | list xs =>
            have h := ihl xs (by simp at hv; omega)
            rcases hl : ptwList xs with e | ws
            · rw [hl] at h
              simp [Except.isOk, Except.toBool] at h
            · simp [python_to_wire, hl, Except.map, Except.isOk, Except.toBool]
        | tuple xs =>
            have h := ihl xs (by simp at hv; omega)
            rcases hl : ptwList xs with e | ws
            · rw [hl] at h
              simp [Except.isOk, Except.toBool] at h
            · simp [python_to_wire, hl, Except.map, Except.isOk, Except.toBool]
        | dict kvs =>
            have h := ihk kvs (by simp at hv; omega)
            rcases hl : ptwKVs kvs with e | ws
            · rw [hl] at h
              simp [Except.isOk, Except.toBool] at h
            · simp [python_to_wire, hl, Except.map, Except.isOk, Except.toBool]
        | pyobj it sr =>
            cases it with
            | noIter => rfl
            | raises => rfl
            | yields xs =>
                rcases hl : ptwList xs with e | ws <;>
                  simp [python_to_wire, hl, Except.isOk, Except.toBool]
      · cases xs with
        | nil => rfl
        | cons x rest =>
            have h1 := ihv x (by simp at hxs; omega)
            have h2 := ihl rest (by simp at hxs; omega)
            rcases hx : python_to_wire x with e | w
            · rw [hx] at h1
              simp [Except.isOk, Except.toBool] at h1
            · rcases hr : ptwList rest with e | ws
              · rw [hr] at h2
                simp [Except.isOk, Except.toBool] at h2
              · simp [ptwList, hx, hr, bind_ok, Bind.bind, Except.bind, pure,
                      Except.pure, Except.isOk, Except.toBool]
      · cases kvs with
        | nil => rfl
        | cons kx rest =>
            obtain ⟨k, x⟩ := kx
            have h1 := ihv x (by simp at hkvs; omega)
            have h2 := ihk rest (by simp at hkvs; omega)
            rcases hx : python_to_wire x with e | w
            · rw [hx] at h1
              simp [Except.isOk, Except.toBool] at h1
            · rcases hr : ptwKVs rest with e | ws
              · rw [hr] at h2
                simp [Except.isOk, Except.toBool] at h2
              · simp [ptwKVs, hx, hr, bind_ok, Bind.bind, Except.bind, pure,
                      Except.pure, Except.isOk, Except.toBool]

/-- C5: the encoder is total — `python_to_wire` produces a wire value for
every native value, never an error; a value matched by no recognized
encoding kind (an opaque object without `__iter__`), or one whose
iteration raises, is encoded as its default textual representation. -/
theorem encoder_total :
    (∀ v : PyValue, (python_to_wire v).isOk = true) ∧
    (∀ sr : String, python_to_wire (.pyobj .noIter sr) = .ok (.str sr)) ∧
    (∀ sr : String, python_to_wire (.pyobj .raises sr) = .ok (.str sr)) :=
  ⟨fun v => (encoder_total_aux (sizeOf v)).1 v le_rfl,
   fun _ => rfl, fun _ => rfl⟩

/-- C2: totality of the loop.  For every malformed input line — invalid
JSON, a non-mapping envelope, argument payloads that raise while decoding,
a missing/falsy module or function name, or a resolution/invocation raise
(the `Malformed` enumeration) — the loop emits exactly one response line,
that line is an `{"error": <string>}` envelope, and processing continues
with the remaining input lines; the loop never terminates on such a line
and never emits zero or two lines for it. -/
theorem dispatch_loop_totality (cfg : Caps) (env : Env) (l : LineInput)
    (h : Malformed cfg env l) (rest : List LineInput) :
    (stepOutputs cfg env l).length = 1 ∧
    (∀ w ∈ stepOutputs cfg env l, isErrEnv w = true) ∧
    runLoop cfg env (l :: rest) =
      readyWire cfg ::
        (stepOutputs cfg env l ++ rest.flatMap (stepOutputs cfg env)) := by
  obtain ⟨s, hs⟩ := malformed_one_error cfg env l h
  refine ⟨by rw [hs]; rfl, ?_, by simp [runLoop]⟩
  rw [hs]
  intro w hw
  simp at hw
  subst hw
  rfl

/-- Witness for C2 at the line `{"m": "nosuch", "f": "x"}` against an empty
registry. -/
theorem dispatch_loop_totality_witness :
    (stepOutputs fullCaps emptyEnv
        (.parsed (.obj [("m", .str "nosuch"), ("f", .str "x")]))).length = 1 ∧
    (∀ w ∈ stepOutputs fullCaps emptyEnv
        (.parsed (.obj [("m", .str "nosuch"), ("f", .str "x")])),
      isErrEnv w = true) ∧
    runLoop fullCaps emptyEnv
        [.parsed (.obj [("m", .str "nosuch"), ("f", .str "x")])] =
      readyWire fullCaps ::
        (stepOutputs fullCaps emptyEnv
            (.parsed (.obj [("m", .str "nosuch"), ("f", .str "x")])) ++
          List.flatMap [] (stepOutputs fullCaps emptyEnv)) := by
  have hd : decodeArgsKw fullCaps [("m", Wire.str "nosuch"), ("f", Wire.str "x")] =
      .ok (.list [], .dict []) := by
    simp [decodeArgsKw, wlookup, wire_to_python, wtpList, wtpKVs, bind_ok,
          Bind.bind, Except.bind, Except.map, pure, Except.pure]
  have hinv : innerInvoke emptyEnv
      (mOf [("m", Wire.str "nosuch"), ("f", Wire.str "x")])
      (fOf [("m", Wire.str "nosuch"), ("f", Wire.str "x")])
      (.list []) (.dict []) =
      .error ⟨"ModuleNotFoundError", "No module named 'nosuch'"⟩ := by
    simp [innerInvoke, emptyEnv, mOf, fOf, wlookup, bind_err, bind_ok,
          Bind.bind, Except.bind]
  have hm := @Malformed.invokeRaises fullCaps emptyEnv
    [("m", Wire.str "nosuch"), ("f", Wire.str "x")] rfl
    (.list []) (.dict []) hd rfl rfl _ hinv
  exact dispatch_loop_totality fullCaps emptyEnv _ hm []

end PortBridge
